import Mathlib

/-!
# Operit DragonBones renderer: slot geometry and frame composition

A shallow embedding of

* `src/dragonbones/cpp/opengl/OpenGLSlot.cpp` (`_updateFrame`, `_updateMesh`), and
* `src/dragonbones/cpp/JniBridge.cpp` (the matrix helpers and the draw loop of `onDrawFrame`).

Conventions of the embedding.

* A C++ `float` is an exact rational (`ℚ`): every statement about arithmetic is a statement
  over exact arithmetic, rounding is not modelled. A quotient is the exact quotient; a divisor
  that is zero gives `0` here and an infinity or NaN in C++, so a statement that names a
  quotient describes the code for non-zero divisors.
* A `std::vector` is a `List`; `resize` keeps the old prefix and value-initialises the rest,
  `v[i] = x` is a checked write.
* A read `p[i]` of a table of the asset (`intArray`, `floatArray`, the deform vertices) and a
  write `v[i] = x` are checked: the rebuild functions return `none` exactly when the C++ code
  would read or write outside the table or vector (or ask `resize` for a negative size).
* A `float*` handed to the matrix helpers is a view `Nat → ℚ` of the cells behind it.
* An entry of `indices` is the unsigned 16-bit value that `glDrawElements` reads from the
  buffer (`GL_UNSIGNED_SHORT`); `toIndex` is the conversion of an `int16_t` table entry to it.
* Where rounding decides a statement, the binary32 arithmetic of the code is modelled by
  `binary32` (round to nearest, ties to even) and the function carries the suffix `32`.
-/

namespace DragonBones

/-! ## Data model -/

/-- The `Rectangle` of a texture region, in atlas pixels. -/
structure Rectangle where
  x : ℚ
  y : ℚ
  width : ℚ
  height : ℚ

/-- The fields of `OpenGLTextureAtlasData` that the slot reads. -/
structure OpenGLTextureAtlasData where
  width : ℚ
  height : ℚ
  textureID : Nat

/-- The fields of `OpenGLTextureData` that the slot reads; `parent` is the owning atlas, which
both rebuild methods dereference without a test. -/
structure OpenGLTextureData where
  region : Rectangle
  parent : OpenGLTextureAtlasData

/-- The enumeration `DisplayType`. -/
inductive DisplayType where
  | Image
  | Armature
  | Mesh
  | BoundingBox
  | Path
  deriving DecidableEq, Repr

/-- The two tables of `DragonBonesData` that the mesh rebuild reads
(`intArray` holds `int16_t` values). -/
structure DragonBonesData where
  intArray : List Int
  floatArray : List ℚ

/-- The structure `VerticesData`: the header position `offset` inside `intArray` and the
(nullable) pointer `data` to the tables. -/
structure VerticesData where
  offset : Nat
  data : Option DragonBonesData

/-- A `DisplayData` with its `type` tag; `vertices` is the member of `MeshDisplayData`, read
only after the tag was tested to be `Mesh`. -/
structure DisplayData where
  type : DisplayType
  vertices : VerticesData

/-- The positions, relative to a mesh header, named by the enumeration `BinaryOffset`.
The enumeration is declared in a header outside the translated sources, so its values are
a parameter of the rebuild. -/
structure BinaryOffset where
  MeshVertexCount : Nat
  MeshTriangleCount : Nat
  MeshFloatOffset : Nat
  MeshVertexIndices : Nat

/-- The 2D affine `dragonBones::Matrix`. -/
structure Matrix2D where
  a : ℚ
  b : ℚ
  c : ℚ
  d : ℚ
  tx : ℚ
  ty : ℚ

/-- An `OpenGLSlot`: the members of `Slot` that the renderer reads, and the geometry cache
`vertices`, `indices`, `textureID`. `_deformVertices` is the vector
`_deformVertices->vertices` (the pointer is dereferenced without a test); `_visible` and
`_display` are what `getVisible()` and `getDisplay()` return. `indices` is the buffer that
`onDrawFrame` hands to `glDrawElements` as `GL_UNSIGNED_SHORT`: an entry is the unsigned
16-bit value held in it. -/
structure OpenGLSlot where
  _textureData : Option OpenGLTextureData
  _displayData : Option DisplayData
  _deformVertices : List ℚ
  _visible : Bool
  _display : Option Nat
  globalTransformMatrix : Matrix2D
  vertices : List ℚ
  indices : List Int
  textureID : Nat

/-! ## Vectors and tables -/

/-- The call `v.resize(n)` for `n ≥ 0`: the first `n` old elements, then `z`. -/
def vecResize {α : Type} (v : List α) (n : Nat) (z : α) : List α :=
  v.take n ++ List.replicate (n - v.length) z

/-- The call `v.resize(n)` with an `int` argument: a negative size does not produce a vector. -/
def resizeInt {α : Type} (v : List α) (n : Int) (z : α) : Option (List α) :=
  if n < 0 then none else some (vecResize v n.toNat z)

/-- The read `p[i]` with an `int` index. -/
def readAt {α : Type} (p : List α) (i : Int) : Option α :=
  if i < 0 then none else p[i.toNat]?

/-- The write `v[i] = x`. -/
def writeAt {α : Type} (v : List α) (i : Nat) (x : α) : Option (List α) :=
  if i < v.length then some (v.set i x) else none

/-- A run of writes `v[i] = x`, in program order. -/
def writeAll {α : Type} (v : List α) : List (Nat × α) → Option (List α)
  | [] => some v
  | (i, x) :: ws => (writeAt v i x).bind (fun v => writeAll v ws)

/-! ## `OpenGLSlot::_updateFrame` -/

/-- The method `OpenGLSlot::_updateFrame`. -/
def _updateFrame (s : OpenGLSlot) : Option OpenGLSlot :=
  match s._textureData with
  | none => some { s with vertices := [], indices := [], textureID := 0 }
  | some textureData =>
    let atlasData := textureData.parent
    let textureID := atlasData.textureID
    let vertices := vecResize s.vertices (4 * 4) 0
    let region := textureData.region
    let atlasWidth := atlasData.width
    let atlasHeight := atlasData.height
    let u_min := region.x / atlasWidth
    let v_min := region.y / atlasHeight
    let u_max := (region.x + region.width) / atlasWidth
    let v_max := (region.y + region.height) / atlasHeight
    let w := region.width
    let h := region.height
    (writeAll vertices
      [(0, -w / 2), (1, -h / 2),
       (4, w / 2), (5, -h / 2),
       (8, -w / 2), (9, h / 2),
       (12, w / 2), (13, h / 2),
       (2, u_min), (3, v_min),
       (6, u_max), (7, v_min),
       (10, u_min), (11, v_max),
       (14, u_max), (15, v_max)]).map
      (fun vertices =>
        { s with vertices := vertices, indices := [0, 1, 2, 1, 3, 2], textureID := textureID })

/-! ## `OpenGLSlot::_updateMesh` -/

/-- The conversion of an `int16_t` value to the unsigned 16-bit element of `indices`: a
negative value `v` becomes `v + 65536`, which for every `int16_t` is `v` modulo `2 ^ 16`
(`toIndex_eq_emod`). -/
def toIndex (value : Int) : Int :=
  if value < 0 then value + 65536 else value

/-- The first loop of `_updateMesh`: `indices[i] = meshIndices[i]` for `i < indices.size()`,
where `meshIndices = &intArray[indexOffset]` points to `int16_t` entries and the assignment
converts to the element type of `indices`. -/
def copyMeshIndices (intArray : List Int) (indexOffset : Int) (indices : List Int) :
    Option (List Int) :=
  (List.range indices.length).foldlM
    (fun (acc : List Int) (i : Nat) => do
      let value ← readAt intArray (indexOffset + (i : Int))
      writeAt acc i (toIndex value))
    indices

/-- One turn of the second loop of `_updateMesh`, for the vertex `i`. -/
def meshVertexStep (floatArray deformVertices : List ℚ) (vertexOffset uvOffset : Int)
    (hasDeform : Bool) (vertices : List ℚ) (i : Nat) : Option (List ℚ) := do
  let x ← (if hasDeform then readAt deformVertices ((i : Int) * 2)
           else readAt floatArray (vertexOffset + (i : Int) * 2))
  let y ← (if hasDeform then readAt deformVertices ((i : Int) * 2 + 1)
           else readAt floatArray (vertexOffset + (i : Int) * 2 + 1))
  let u ← readAt floatArray (uvOffset + (i : Int) * 2)
  let v ← readAt floatArray (uvOffset + (i : Int) * 2 + 1)
  let vertices ← writeAt vertices (i * 4 + 0) x
  let vertices ← writeAt vertices (i * 4 + 1) y
  let vertices ← writeAt vertices (i * 4 + 2) u
  writeAt vertices (i * 4 + 3) v

/-- The second loop of `_updateMesh`: one `(x, y, u, v)` per vertex `i < vertexCount`. -/
def fillMeshVertices (floatArray deformVertices : List ℚ) (vertexOffset vertexCount : Int)
    (vertices : List ℚ) : Option (List ℚ) :=
  let hasDeform := !deformVertices.isEmpty
  let uvOffset := vertexOffset + vertexCount * 2
  (List.range vertexCount.toNat).foldlM
    (meshVertexStep floatArray deformVertices vertexOffset uvOffset hasDeform) vertices

/-- The method `OpenGLSlot::_updateMesh` (also the body of `_onUpdateDisplay`). -/
def _updateMesh (bo : BinaryOffset) (s : OpenGLSlot) : Option OpenGLSlot :=
  match s._textureData with
  | none => some { s with vertices := [], indices := [], textureID := 0 }
  | some textureData =>
    match s._displayData with
    | none => _updateFrame s
    | some displayData =>
      if displayData.type ≠ DisplayType.Mesh then _updateFrame s
      else
        let verticesData := displayData.vertices
        match verticesData.data with
        | none => some s
        | some dragonBonesData => do
          let intArray := dragonBonesData.intArray
          let floatArray := dragonBonesData.floatArray
          let vertexCount ← intArray[verticesData.offset + bo.MeshVertexCount]?
          let triangleCount ← intArray[verticesData.offset + bo.MeshTriangleCount]?
          let vertexOffset ← intArray[verticesData.offset + bo.MeshFloatOffset]?
          let indexOffset ← intArray[verticesData.offset + bo.MeshVertexIndices]?
          let indices ← resizeInt s.indices (triangleCount * 3) 0
          let indices ← copyMeshIndices intArray indexOffset indices
          let vertices ← resizeInt s.vertices (vertexCount * 4) 0
          let vertices ← fillMeshVertices floatArray s._deformVertices vertexOffset
            vertexCount vertices
          let atlasData := textureData.parent
          some { s with vertices := vertices, indices := indices,
                        textureID := atlasData.textureID }

/-! ## The matrix helpers of `JniBridge.cpp` -/

/-- The cells behind a `float*`: cell `i` is `p[i]`. -/
abbrev Mat := Nat → ℚ

/-- The assignment `matrix[i] = x`. -/
def assign (matrix : Mat) (i : Nat) (x : ℚ) : Mat := Function.update matrix i x

/-- A fresh local `float[16]`. Its cells are all assigned before they are read; they start
as zero here. -/
def freshMatrix : Mat := fun _ => 0

/-- The function `createOrthographicMatrix` over exact arithmetic: the cells behind `matrix`
after the call, the quotients taken exactly. `createOrthographicMatrix32` is the same function
with the binary32 rounding of the code. -/
def createOrthographicMatrix (left right bottom top near far : ℚ) (matrix : Mat) : Mat :=
  let matrix := assign matrix 0 (2 / (right - left))
  let matrix := assign matrix 1 0
  let matrix := assign matrix 2 0
  let matrix := assign matrix 3 0
  let matrix := assign matrix 4 0
  let matrix := assign matrix 5 (2 / (top - bottom))
  let matrix := assign matrix 6 0
  let matrix := assign matrix 7 0
  let matrix := assign matrix 8 0
  let matrix := assign matrix 9 0
  let matrix := assign matrix 10 (-2 / (far - near))
  let matrix := assign matrix 11 0
  let matrix := assign matrix 12 (-(right + left) / (right - left))
  let matrix := assign matrix 13 (-(top + bottom) / (top - bottom))
  let matrix := assign matrix 14 (-(far + near) / (far - near))
  assign matrix 15 1

/-- Rounding of a rational to the nearest integer, a tie going to the even neighbour. -/
def roundNearestEven (q : ℚ) : ℤ :=
  if q - ⌊q⌋ < 1 / 2 then ⌊q⌋
  else if 1 / 2 < q - ⌊q⌋ then ⌊q⌋ + 1
  else if ⌊q⌋ % 2 = 0 then ⌊q⌋ else ⌊q⌋ + 1

/-- The binary32 (IEEE 754 single precision) value nearest to `q`, ties to even: 24
significant bits in the binade `2 ^ e ≤ |q| < 2 ^ (e + 1)`, the exponent `e` not below `-126`
(below it the spacing is the subnormal `2 ^ (-149)`). This is the result of a `float`
operation whose exact result is `q`. A magnitude beyond the binary32 range, for which the
machine gives an infinity, is not modelled, and neither is a division by zero. -/
def binary32 (q : ℚ) : ℚ :=
  (roundNearestEven (q / 2 ^ (max (Int.log 2 |q|) (-126) - 23)) : ℚ)
    * 2 ^ (max (Int.log 2 |q|) (-126) - 23)

/-- The function `createOrthographicMatrix` in binary32 arithmetic: the same sixteen
assignments, every subtraction, addition and division of `float` values rounded to binary32
(a negation and the constants `2.0f`, `0.0f`, `1.0f` are exact; a `float` expression is
evaluated in `float`, as on the Android ABIs). The arguments are `float` values. -/
def createOrthographicMatrix32 (left right bottom top near far : ℚ) (matrix : Mat) : Mat :=
  let matrix := assign matrix 0 (binary32 (2 / binary32 (right - left)))
  let matrix := assign matrix 1 0
  let matrix := assign matrix 2 0
  let matrix := assign matrix 3 0
  let matrix := assign matrix 4 0
  let matrix := assign matrix 5 (binary32 (2 / binary32 (top - bottom)))
  let matrix := assign matrix 6 0
  let matrix := assign matrix 7 0
  let matrix := assign matrix 8 0
  let matrix := assign matrix 9 0
  let matrix := assign matrix 10 (binary32 (-2 / binary32 (far - near)))
  let matrix := assign matrix 11 0
  let matrix := assign matrix 12 (binary32 (-binary32 (right + left) / binary32 (right - left)))
  let matrix := assign matrix 13 (binary32 (-binary32 (top + bottom) / binary32 (top - bottom)))
  let matrix := assign matrix 14 (binary32 (-binary32 (far + near) / binary32 (far - near)))
  assign matrix 15 1

/-- The function `createIdentityMatrix`. -/
def createIdentityMatrix (matrix : Mat) : Mat :=
  let matrix := assign matrix 0 1
  let matrix := assign matrix 4 0
  let matrix := assign matrix 8 0
  let matrix := assign matrix 12 0
  let matrix := assign matrix 1 0
  let matrix := assign matrix 5 1
  let matrix := assign matrix 9 0
  let matrix := assign matrix 13 0
  let matrix := assign matrix 2 0
  let matrix := assign matrix 6 0
  let matrix := assign matrix 10 1
  let matrix := assign matrix 14 0
  let matrix := assign matrix 3 0
  let matrix := assign matrix 7 0
  let matrix := assign matrix 11 0
  assign matrix 15 1

/-- The function `createTranslateMatrix`. -/
def createTranslateMatrix (matrix : Mat) (tx ty tz : ℚ) : Mat :=
  let matrix := createIdentityMatrix matrix
  let matrix := assign matrix 12 tx
  let matrix := assign matrix 13 ty
  assign matrix 14 tz

/-- The function `createScaleMatrix`. -/
def createScaleMatrix (matrix : Mat) (sx sy sz : ℚ) : Mat :=
  let matrix := createIdentityMatrix matrix
  let matrix := assign matrix 0 sx
  let matrix := assign matrix 5 sy
  assign matrix 10 sz

/-- The function `convertDBMatrixToGL`. -/
def convertDBMatrixToGL (dbMatrix : Matrix2D) (glMatrix : Mat) : Mat :=
  let glMatrix := createIdentityMatrix glMatrix
  let glMatrix := assign glMatrix 0 dbMatrix.a
  let glMatrix := assign glMatrix 1 dbMatrix.b
  let glMatrix := assign glMatrix 4 dbMatrix.c
  let glMatrix := assign glMatrix 5 dbMatrix.d
  let glMatrix := assign glMatrix 12 dbMatrix.tx
  assign glMatrix 13 dbMatrix.ty

/-- The three nested loops of `multiplyMatrices`: the local array `res` when they end, for
the cells `a` and `b` behind the two input pointers. Every cell `res[j * 4 + i]` is set to
zero before it accumulates. These sixteen cells are what `memcpy` then stores in `result`. -/
def multiplyMatrices (a b : Mat) : Mat :=
  (List.range 4).foldl
    (fun res i =>
      (List.range 4).foldl
        (fun res j =>
          let res := assign res (j * 4 + i) 0
          (List.range 4).foldl
            (fun res k =>
              assign res (j * 4 + i) (res (j * 4 + i) + a (k * 4 + i) * b (j * 4 + k)))
            res)
        res)
    freshMatrix

/-- The call `multiplyMatrices(a, b, result)` on a memory of `float` cells, the three
pointers being addresses that may coincide or overlap: the loops read the memory as it is
before the call and fill the local `res`, then `memcpy` writes the sixteen cells of `res`
at `result`. -/
def multiplyMatricesAt (mem : Nat → ℚ) (a b result : Nat) : Nat → ℚ :=
  let res := multiplyMatrices (fun n => mem (a + n)) (fun n => mem (b + n))
  fun p => if result ≤ p ∧ p < result + 16 then res (p - result) else mem p

/-! ## The renderer state and the frame callbacks -/

/-- The renderer state: the slots of `instance->armature` (when an armature is built),
`instance->projectionMatrix`, and the globals `viewportWidth`, `viewportHeight`. -/
structure JniBridgeInstance where
  armature : Option (List (Option OpenGLSlot))
  projectionMatrix : Mat
  viewportWidth : ℚ
  viewportHeight : ℚ

/-- The callback `onSurfaceChanged` (the GL viewport apart). -/
def onSurfaceChanged (inst : JniBridgeInstance) (width height : Int) : JniBridgeInstance :=
  { inst with
    viewportWidth := (width : ℚ)
    viewportHeight := (height : ℚ)
    projectionMatrix :=
      createOrthographicMatrix 0 (width : ℚ) (height : ℚ) 0 (-1) 1 inst.projectionMatrix }

/-- The test `vertices.empty() || indices.empty() || textureID == 0` of `onDrawFrame`: the
geometry cache of the slot cannot be drawn. -/
def emptyGeometry (slot : OpenGLSlot) : Bool :=
  slot.vertices.isEmpty || slot.indices.isEmpty || slot.textureID == 0

/-- One submission to the GPU: the uploaded MVP matrix, the bound texture, the vertex buffer
the two attribute pointers refer to, and the count and index buffer of `glDrawElements`. -/
structure DrawCall where
  mvpMatrix : Mat
  texture : Nat
  vertices : List ℚ
  count : Nat
  indices : List Int

/-- Steps A to D of the loop body of `onDrawFrame` for a slot that passed every test. -/
def drawSlot (projectionMatrix viewMatrix : Mat) (slot : OpenGLSlot) : DrawCall :=
  let slotModelMatrix := convertDBMatrixToGL slot.globalTransformMatrix freshMatrix
  let pvMatrix := multiplyMatrices projectionMatrix viewMatrix
  let mvpMatrix := multiplyMatrices pvMatrix slotModelMatrix
  { mvpMatrix := mvpMatrix, texture := slot.textureID, vertices := slot.vertices,
    count := slot.indices.length, indices := slot.indices }

/-- The loop `for (const auto& slot : slots)` of `onDrawFrame`: the draw calls it issues, in
the order it issues them. Each `continue` of the source is a branch that goes on with the
rest of the sequence; the `static_cast` of a non-null slot is never null. -/
def drawSlots (projectionMatrix viewMatrix : Mat) : List (Option OpenGLSlot) → List DrawCall
  | [] => []
  | none :: slots => drawSlots projectionMatrix viewMatrix slots
  | some slot :: slots =>
    if !slot._visible then drawSlots projectionMatrix viewMatrix slots
    else if slot._display.isNone then drawSlots projectionMatrix viewMatrix slots
    else if emptyGeometry slot then drawSlots projectionMatrix viewMatrix slots
    else drawSlot projectionMatrix viewMatrix slot :: drawSlots projectionMatrix viewMatrix slots

/-- Step 4 of `onDrawFrame`: the view matrix that scales the armature by one half and
centres it in the viewport. -/
def frameViewMatrix (inst : JniBridgeInstance) : Mat :=
  let scaleM := createScaleMatrix freshMatrix (1 / 2) (1 / 2) 1
  let transM := createTranslateMatrix freshMatrix (inst.viewportWidth / 2)
    (inst.viewportHeight / 2) 0
  multiplyMatrices transM scaleM

/-- The callback `onDrawFrame`: the draw calls of one frame. `advanceTime` is the effect of
`worldClock->advanceTime(1.0f / 60.0f)` on the slots of the armature, a collaborator outside
the translated sources. -/
def onDrawFrame (advanceTime : List (Option OpenGLSlot) → List (Option OpenGLSlot))
    (inst : JniBridgeInstance) : List DrawCall :=
  match inst.armature with
  | none => []
  | some slots =>
    let slots := advanceTime slots
    let viewMatrix := frameViewMatrix inst
    drawSlots inst.projectionMatrix viewMatrix slots

/-- The mesh branch of `_updateMesh`, after its null tests, as a function of the previous
`vertices` and `indices`: the two rebuilt vectors. `_updateMesh` on a slot that reaches the
branch is this function followed by the three stores (`updateMesh_eq_meshGeometry`). -/
def meshGeometry (bo : BinaryOffset) (verticesData : VerticesData)
    (dragonBonesData : DragonBonesData) (deformVertices : List ℚ)
    (vertices : List ℚ) (indices : List Int) : Option (List ℚ × List Int) := do
  let intArray := dragonBonesData.intArray
  let floatArray := dragonBonesData.floatArray
  let vertexCount ← intArray[verticesData.offset + bo.MeshVertexCount]?
  let triangleCount ← intArray[verticesData.offset + bo.MeshTriangleCount]?
  let vertexOffset ← intArray[verticesData.offset + bo.MeshFloatOffset]?
  let indexOffset ← intArray[verticesData.offset + bo.MeshVertexIndices]?
  let indices ← resizeInt indices (triangleCount * 3) 0
  let indices ← copyMeshIndices intArray indexOffset indices
  let vertices ← resizeInt vertices (vertexCount * 4) 0
  let vertices ← fillMeshVertices floatArray deformVertices vertexOffset vertexCount vertices
  some (vertices, indices)

/-! ## Notions used by the statements -/

/-- The position source of vertex `i`, coordinate `k`: the deform vertices when there are
any, the base positions of the topology otherwise. -/
def meshPosition (floatArray deformVertices : List ℚ) (vertexOffset : Int) (i k : Nat) :
    Option ℚ :=
  if deformVertices.isEmpty then readAt floatArray (vertexOffset + (i : Int) * 2 + (k : Int))
  else readAt deformVertices ((i : Int) * 2 + (k : Int))

/-- A slot bound to a mesh whose texture and topology are resolved: the texture data, the
display data of `Mesh` type and its tables are present, the header at `offset` holds the
counts `vertexCount`, `triangleCount` and the offsets `vertexOffset`, `indexOffset`, the
tables cover the ranges that the header announces, and the deform vertices are either empty
or hold a pair for every vertex. -/
structure MeshInput (bo : BinaryOffset) (s : OpenGLSlot) (textureData : OpenGLTextureData)
    (displayData : DisplayData) (data : DragonBonesData)
    (vertexCount triangleCount : Nat) (vertexOffset indexOffset : Int) : Prop where
  texture : s._textureData = some textureData
  display : s._displayData = some displayData
  mesh : displayData.type = DisplayType.Mesh
  tables : displayData.vertices.data = some data
  readVertexCount :
    data.intArray[displayData.vertices.offset + bo.MeshVertexCount]? = some (vertexCount : Int)
  readTriangleCount :
    data.intArray[displayData.vertices.offset + bo.MeshTriangleCount]?
      = some (triangleCount : Int)
  readVertexOffset :
    data.intArray[displayData.vertices.offset + bo.MeshFloatOffset]? = some vertexOffset
  readIndexOffset :
    data.intArray[displayData.vertices.offset + bo.MeshVertexIndices]? = some indexOffset
  indexRange : 0 ≤ indexOffset ∧ indexOffset + triangleCount * 3 ≤ data.intArray.length
  floatRange : 0 ≤ vertexOffset ∧ vertexOffset + vertexCount * 4 ≤ data.floatArray.length
  deformRange : s._deformVertices = [] ∨ 2 * vertexCount ≤ s._deformVertices.length

/-- The 4 x 4 matrix that sixteen column-major cells encode: the entry at row `r`, column `c`
is the cell `c * 4 + r`. -/
def toMatrix (m : Mat) : Matrix (Fin 4) (Fin 4) ℚ :=
  Matrix.of (fun r c => m (c.val * 4 + r.val))

/-- The column vector `(x, y, z, w)`. -/
def point (x y z w : ℚ) : Fin 4 → ℚ := ![x, y, z, w]

/-- The eligibility of an entry of the slot sequence, as the specification words it: the slot
is there, visible, has a display, at least one vertex, at least one index and a texture. -/
def eligible : Option OpenGLSlot → Bool
  | none => false
  | some slot =>
    slot._visible && slot._display.isSome && !slot.vertices.isEmpty && !slot.indices.isEmpty
      && slot.textureID != 0

/-- The MVP matrix as the specification words it: `projection × (view × model)`. -/
def specMVP (projection view model : Mat) : Matrix (Fin 4) (Fin 4) ℚ :=
  toMatrix projection * (toMatrix view * toMatrix model)

/-! ## Example inputs -/

/-- The values of `BinaryOffset` in the DragonBones binary format. -/
def binaryOffset : BinaryOffset :=
  { MeshVertexCount := 0, MeshTriangleCount := 1, MeshFloatOffset := 2, MeshVertexIndices := 4 }

/-- A 200 x 200 atlas with texture handle 7. -/
def atlas200 : OpenGLTextureAtlasData := { width := 200, height := 200, textureID := 7 }

/-- The region `{x:0, y:0, w:100, h:50}` of `atlas200`. -/
def region100x50 : OpenGLTextureData :=
  { region := { x := 0, y := 0, width := 100, height := 50 }, parent := atlas200 }

/-- A slot bound to `region100x50` with no display data and a stale geometry cache. -/
def flatSlot : OpenGLSlot :=
  { _textureData := some region100x50, _displayData := none, _deformVertices := [],
    _visible := true, _display := some 1,
    globalTransformMatrix := { a := 1, b := 0, c := 0, d := 1, tx := 0, ty := 0 },
    vertices := [9, 9, 9], indices := [4, 4], textureID := 3 }

/-- Tables of a mesh with 3 vertices and 1 triangle, the header at position 0; the triangle
is `triangle`. -/
def triangleData (triangle : List Int) : DragonBonesData :=
  { intArray := [3, 1, 0, 0, 5] ++ triangle,
    floatArray := [0, 0, 10, 0, 0, 10, 0, 0, 1, 0, 0, 1] }

/-- A slot bound to the mesh `triangleData triangle`, with deform vertices `deform`. -/
def meshSlot (triangle : List Int) (deform : List ℚ) : OpenGLSlot :=
  { _textureData := some region100x50,
    _displayData := some { type := DisplayType.Mesh,
                           vertices := { offset := 0, data := some (triangleData triangle) } },
    _deformVertices := deform,
    _visible := true, _display := some 1,
    globalTransformMatrix := { a := 1, b := 0, c := 0, d := 1, tx := 0, ty := 0 },
    vertices := [], indices := [], textureID := 0 }

/-- A flat slot with a rebuilt geometry cache that can be drawn. -/
def quadSlot : OpenGLSlot :=
  { flatSlot with
    vertices := [-50, -25, 0, 0, 50, -25, 1 / 2, 0, -50, 25, 0, 1 / 4, 50, 25, 1 / 2, 1 / 4],
    indices := [0, 1, 2, 1, 3, 2],
    textureID := 7 }

/-- A renderer state whose armature holds a hidden slot, a null entry, a drawable slot, a slot
without texture, a slot without indices, and a second drawable slot. -/
def frameInstance : JniBridgeInstance :=
  { armature := some
      [some { quadSlot with _visible := false }, none, some quadSlot,
       some { quadSlot with textureID := 0 }, some { quadSlot with indices := [] },
       some { quadSlot with textureID := 8 }],
    projectionMatrix := createOrthographicMatrix 0 1080 1920 0 (-1) 1 freshMatrix,
    viewportWidth := 1080, viewportHeight := 1920 }

/-- A slot without texture data that still holds a geometry cache from an earlier display. -/
def staleSlot : OpenGLSlot := { flatSlot with _textureData := none }

/-- A slot with a drawable geometry cache bound to a mesh whose tables are not resolved. -/
def danglingMeshSlot : OpenGLSlot :=
  { quadSlot with
    _displayData := some { type := DisplayType.Mesh, vertices := { offset := 0, data := none } } }

/-- The region `{x:10, y:20, w:-5, h:-10}` of `atlas200`: its origin is non-negative and
`x + width`, `y + height` stay inside the atlas, but its extent is negative. -/
def invertedRegion : OpenGLTextureData :=
  { region := { x := 10, y := 20, width := -5, height := -10 }, parent := atlas200 }

/-- A flat slot bound to `invertedRegion`. -/
def invertedSlot : OpenGLSlot := { flatSlot with _textureData := some invertedRegion }

/-! # Theorems -/

/-! ## Vectors: basic facts -/

theorem vecResize_length {α : Type} (v : List α) (n : Nat) (z : α) :
    (vecResize v n z).length = n := by
  simp [vecResize]; omega

theorem writeAll_cons_of_lt {α : Type} (v : List α) (i : Nat) (x : α) (ws : List (Nat × α))
    (h : i < v.length) : writeAll v ((i, x) :: ws) = writeAll (v.set i x) ws := by
  simp [writeAll, writeAt, h]

/-- Sixteen writes, in the order of `_updateFrame`, fill a vector of sixteen cells. -/
theorem writeAll_sixteen {α : Type} (l : List α) (hl : l.length = 16)
    (x0 x1 x2 x3 x4 x5 x6 x7 x8 x9 x10 x11 x12 x13 x14 x15 : α) :
    writeAll l [(0, x0), (1, x1), (4, x4), (5, x5), (8, x8), (9, x9), (12, x12), (13, x13),
      (2, x2), (3, x3), (6, x6), (7, x7), (10, x10), (11, x11), (14, x14), (15, x15)]
      = some [x0, x1, x2, x3, x4, x5, x6, x7, x8, x9, x10, x11, x12, x13, x14, x15] := by
  iterate 16 rw [writeAll_cons_of_lt _ _ _ _ (by simp only [List.length_set, hl]; norm_num)]
  refine congrArg some ?_
  apply List.ext_getElem?
  intro n
  by_cases hn : n < 16
  · interval_cases n <;> simp [List.getElem?_set, hl]
  · rw [List.getElem?_eq_none (by simp [hl]; omega), List.getElem?_eq_none (by simp; omega)]


theorem readAt_natCast {α : Type} (p : List α) (n : Nat) : readAt p (n : Int) = p[n]? := by
  simp [readAt]

theorem readAt_isSome {α : Type} (p : List α) (i : Int) (h0 : 0 ≤ i) (h1 : i < p.length) :
    ∃ x, readAt p i = some x := by
  obtain ⟨n, rfl⟩ := Int.eq_ofNat_of_zero_le h0
  have hn : n < p.length := by exact_mod_cast h1
  exact ⟨p[n], by simp [readAt, hn]⟩

theorem writeAt_of_lt {α : Type} (v : List α) (i : Nat) (x : α) (h : i < v.length) :
    writeAt v i x = some (v.set i x) := by
  simp [writeAt, h]

/-- A counted loop in the `Option` monad establishes its invariant. -/
theorem foldlM_range_invariant {β : Type} (step : β → Nat → Option β)
    (P : Nat → β → Prop) (n : Nat) (init : β) (h0 : P 0 init)
    (hstep : ∀ m acc, m < n → P m acc → ∃ acc', step acc m = some acc' ∧ P (m + 1) acc') :
    ∃ r, (List.range n).foldlM step init = some r ∧ P n r := by
  induction n with
  | zero => exact ⟨init, by simp, h0⟩
  | succ k ih =>
    obtain ⟨r, hr, hP⟩ := ih (fun m acc hm hacc => hstep m acc (by omega) hacc)
    obtain ⟨r', hr', hP'⟩ := hstep k r (by omega) hP
    refine ⟨r', ?_, hP'⟩
    rw [List.range_succ, List.foldlM_append, hr]
    simp [hr']

/-! ## The two loops of the mesh path -/

theorem toIndex_eq_emod (value : Int) (h0 : -32768 ≤ value) (h1 : value < 32768) :
    toIndex value = value % 65536 := by
  unfold toIndex
  split <;> omega

theorem toIndex_of_nonneg (value : Int) (h : 0 ≤ value) : toIndex value = value := by
  unfold toIndex
  rw [if_neg (by omega)]

/-- The index loop stores the `indices.size()` table entries that start at `indexOffset`,
each converted by `toIndex`. -/
theorem copyMeshIndices_spec (intArray : List Int) (indexOffset : Int) (indices : List Int)
    (h0 : 0 ≤ indexOffset) (h1 : indexOffset + indices.length ≤ intArray.length) :
    ∃ r, copyMeshIndices intArray indexOffset indices = some r ∧
      r.length = indices.length ∧
      ∀ i, i < indices.length →
        r[i]? = (readAt intArray (indexOffset + (i : Int))).map toIndex := by
  unfold copyMeshIndices
  refine foldlM_range_invariant _
    (fun m acc => acc.length = indices.length ∧
      ∀ i, i < m → acc[i]? = (readAt intArray (indexOffset + (i : Int))).map toIndex)
    indices.length indices ?_ ?_
  · exact ⟨rfl, fun i hi => absurd hi (Nat.not_lt_zero i)⟩
  · intro m acc hm ⟨hlen, hacc⟩
    obtain ⟨x, hx⟩ := readAt_isSome intArray (indexOffset + (m : Int)) (by omega) (by omega)
    refine ⟨acc.set m (toIndex x), ?_, by simpa using hlen, ?_⟩
    · simp [hx, writeAt_of_lt acc m (toIndex x) (by omega)]
    · intro i hi
      by_cases him : i = m
      · subst him
        rw [hx]
        simp [List.getElem?_set, hlen, hm]
      · rw [List.getElem?_set_ne (fun h => him h.symm)]
        exact hacc i (by omega)

theorem meshPosition_isSome (floatArray deformVertices : List ℚ) (vertexOffset : Int)
    (vertexCount i k : Nat) (hi : i < vertexCount) (hk : k < 2)
    (h0 : 0 ≤ vertexOffset) (h1 : vertexOffset + vertexCount * 4 ≤ floatArray.length)
    (hdv : deformVertices = [] ∨ 2 * vertexCount ≤ deformVertices.length) :
    ∃ x, meshPosition floatArray deformVertices vertexOffset i k = some x := by
  unfold meshPosition
  split
  · exact readAt_isSome _ _ (by omega) (by omega)
  · rename_i hne
    rcases hdv with h | h
    · simp [h] at hne
    · exact readAt_isSome _ _ (by omega) (by omega)

/-- The vertex loop writes `(x, y, u, v)` of every vertex `i < vertexCount`. -/
theorem fillMeshVertices_spec (floatArray deformVertices : List ℚ) (vertexOffset : Int)
    (vertexCount : Nat) (vertices : List ℚ)
    (hlen : vertices.length = vertexCount * 4)
    (h0 : 0 ≤ vertexOffset) (h1 : vertexOffset + vertexCount * 4 ≤ floatArray.length)
    (hdv : deformVertices = [] ∨ 2 * vertexCount ≤ deformVertices.length) :
    ∃ r, fillMeshVertices floatArray deformVertices vertexOffset vertexCount vertices = some r ∧
      r.length = vertexCount * 4 ∧
      ∀ i, i < vertexCount →
        r[i * 4]? = meshPosition floatArray deformVertices vertexOffset i 0 ∧
        r[i * 4 + 1]? = meshPosition floatArray deformVertices vertexOffset i 1 ∧
        r[i * 4 + 2]? = readAt floatArray (vertexOffset + vertexCount * 2 + (i : Int) * 2) ∧
        r[i * 4 + 3]? =
          readAt floatArray (vertexOffset + vertexCount * 2 + (i : Int) * 2 + 1) := by
  unfold fillMeshVertices
  simp only [Int.toNat_ofNat]
  refine foldlM_range_invariant _
    (fun m acc => acc.length = vertexCount * 4 ∧
      ∀ i, i < m →
        acc[i * 4]? = meshPosition floatArray deformVertices vertexOffset i 0 ∧
        acc[i * 4 + 1]? = meshPosition floatArray deformVertices vertexOffset i 1 ∧
        acc[i * 4 + 2]? = readAt floatArray (vertexOffset + vertexCount * 2 + (i : Int) * 2) ∧
        acc[i * 4 + 3]? =
          readAt floatArray (vertexOffset + vertexCount * 2 + (i : Int) * 2 + 1))
    vertexCount vertices ?_ ?_
  · exact ⟨hlen, fun i hi => absurd hi (Nat.not_lt_zero i)⟩
  · intro m acc hm ⟨hl, hacc⟩
    obtain ⟨x, hx⟩ := meshPosition_isSome floatArray deformVertices vertexOffset vertexCount
      m 0 hm (by omega) h0 h1 hdv
    obtain ⟨y, hy⟩ := meshPosition_isSome floatArray deformVertices vertexOffset vertexCount
      m 1 hm (by omega) h0 h1 hdv
    obtain ⟨u, hu⟩ := readAt_isSome floatArray (vertexOffset + vertexCount * 2 + (m : Int) * 2)
      (by omega) (by omega)
    obtain ⟨v, hv⟩ := readAt_isSome floatArray
      (vertexOffset + vertexCount * 2 + (m : Int) * 2 + 1) (by omega) (by omega)
    have hx' : (if (!deformVertices.isEmpty) = true then readAt deformVertices ((m : Int) * 2)
        else readAt floatArray (vertexOffset + (m : Int) * 2)) = some x := by
      rw [← hx]; unfold meshPosition; cases deformVertices <;> simp
    have hy' : (if (!deformVertices.isEmpty) = true then
        readAt deformVertices ((m : Int) * 2 + 1)
        else readAt floatArray (vertexOffset + (m : Int) * 2 + 1)) = some y := by
      rw [← hy]; unfold meshPosition; cases deformVertices <;> simp
    refine ⟨(((acc.set (m * 4 + 0) x).set (m * 4 + 1) y).set (m * 4 + 2) u).set (m * 4 + 3) v,
      ?_, by simpa using hl, ?_⟩
    · unfold meshVertexStep
      rw [hx', hy', hu, hv]
      simp only [Option.bind_eq_bind, Option.some_bind]
      rw [writeAt_of_lt _ _ _ (by omega)]
      simp only [Option.some_bind]
      rw [writeAt_of_lt _ _ _ (by simp; omega)]
      simp only [Option.some_bind]
      rw [writeAt_of_lt _ _ _ (by simp; omega)]
      simp only [Option.some_bind]
      rw [writeAt_of_lt _ _ _ (by simp; omega)]
    · intro i hi
      by_cases him : i = m
      · subst him
        rw [hx, hy, hu, hv]
        refine ⟨?_, ?_, ?_, ?_⟩ <;> simp [List.getElem?_set] <;> omega
      · obtain ⟨a1, a2, a3, a4⟩ := hacc i (by omega)
        rw [← a1, ← a2, ← a3, ← a4]
        refine ⟨?_, ?_, ?_, ?_⟩ <;>
        · rw [List.getElem?_set_ne (by omega), List.getElem?_set_ne (by omega),
            List.getElem?_set_ne (by omega), List.getElem?_set_ne (by omega)]

theorem resizeInt_natCast {α : Type} (v : List α) (n : Nat) (z : α) :
    resizeInt v ((n : Int) * 3) z = some (vecResize v (n * 3) z) ∧
    resizeInt v ((n : Int) * 4) z = some (vecResize v (n * 4) z) := by
  have h3 : ((n : Int) * 3).toNat = n * 3 := by omega
  have h4 : ((n : Int) * 4).toNat = n * 4 := by omega
  have h3' : ¬ ((n : Int) * 3 < 0) := by omega
  have h4' : ¬ ((n : Int) * 4 < 0) := by omega
  simp [resizeInt, h3, h4, h3', h4']

/-- The mesh path of `_updateMesh` on a resolved mesh. -/
theorem updateMesh_mesh (bo : BinaryOffset) (s : OpenGLSlot) (textureData : OpenGLTextureData)
    (displayData : DisplayData) (data : DragonBonesData)
    (vertexCount triangleCount : Nat) (vertexOffset indexOffset : Int)
    (h : MeshInput bo s textureData displayData data vertexCount triangleCount vertexOffset
      indexOffset) :
    ∃ vertices indices,
      _updateMesh bo s = some { s with vertices := vertices, indices := indices,
                                       textureID := textureData.parent.textureID } ∧
      indices.length = triangleCount * 3 ∧
      (∀ i, i < triangleCount * 3 →
        indices[i]? = (readAt data.intArray (indexOffset + (i : Int))).map toIndex) ∧
      vertices.length = vertexCount * 4 ∧
      ∀ i, i < vertexCount →
        vertices[i * 4]? = meshPosition data.floatArray s._deformVertices vertexOffset i 0 ∧
        vertices[i * 4 + 1]? = meshPosition data.floatArray s._deformVertices vertexOffset i 1 ∧
        vertices[i * 4 + 2]? =
          readAt data.floatArray (vertexOffset + vertexCount * 2 + (i : Int) * 2) ∧
        vertices[i * 4 + 3]? =
          readAt data.floatArray (vertexOffset + vertexCount * 2 + (i : Int) * 2 + 1) := by
  have hlenI := vecResize_length s.indices (triangleCount * 3) (0 : Int)
  have hlenV := vecResize_length s.vertices (vertexCount * 4) (0 : ℚ)
  obtain ⟨indices, hI, hIlen, hIget⟩ := copyMeshIndices_spec data.intArray indexOffset
    (vecResize s.indices (triangleCount * 3) 0) h.indexRange.1
    (by rw [hlenI]; exact_mod_cast h.indexRange.2)
  obtain ⟨vertices, hV, hVlen, hVget⟩ := fillMeshVertices_spec data.floatArray
    s._deformVertices vertexOffset vertexCount (vecResize s.vertices (vertexCount * 4) 0)
    hlenV h.floatRange.1 h.floatRange.2 h.deformRange
  refine ⟨vertices, indices, ?_, by rw [hIlen, hlenI], ?_, hVlen, hVget⟩
  · unfold _updateMesh
    rw [h.texture, h.display]
    simp only [h.mesh, h.tables, ne_eq, not_true_eq_false, if_false, h.readVertexCount,
      h.readTriangleCount, h.readVertexOffset, h.readIndexOffset, Option.bind_eq_bind,
      Option.some_bind, (resizeInt_natCast s.indices triangleCount 0).1,
      (resizeInt_natCast s.vertices vertexCount 0).2, hI, hV]
  · intro i hi
    exact hIget i (by rw [hlenI]; exact hi)

theorem meshSlot_input (t0 t1 t2 : Int) (deform : List ℚ)
    (hd : deform = [] ∨ 6 ≤ deform.length) :
    MeshInput binaryOffset (meshSlot [t0, t1, t2] deform) region100x50
      { type := DisplayType.Mesh,
        vertices := { offset := 0, data := some (triangleData [t0, t1, t2]) } }
      (triangleData [t0, t1, t2]) 3 1 0 5 :=
  { texture := rfl, display := rfl, mesh := rfl, tables := rfl,
    readVertexCount := rfl, readTriangleCount := rfl, readVertexOffset := rfl,
    readIndexOffset := rfl,
    indexRange := by simp [triangleData],
    floatRange := by simp [triangleData],
    deformRange := by simpa [meshSlot] using hd }


/-! ## The flat-image path -/

/-- With texture data present, `_updateFrame` builds the quad of the region. -/
theorem updateFrame_quad (s : OpenGLSlot) (textureData : OpenGLTextureData)
    (hT : s._textureData = some textureData) :
    _updateFrame s = some { s with
      vertices :=
        [-textureData.region.width / 2, -textureData.region.height / 2,
          textureData.region.x / textureData.parent.width,
          textureData.region.y / textureData.parent.height,
         textureData.region.width / 2, -textureData.region.height / 2,
          (textureData.region.x + textureData.region.width) / textureData.parent.width,
          textureData.region.y / textureData.parent.height,
         -textureData.region.width / 2, textureData.region.height / 2,
          textureData.region.x / textureData.parent.width,
          (textureData.region.y + textureData.region.height) / textureData.parent.height,
         textureData.region.width / 2, textureData.region.height / 2,
          (textureData.region.x + textureData.region.width) / textureData.parent.width,
          (textureData.region.y + textureData.region.height) / textureData.parent.height],
      indices := [0, 1, 2, 1, 3, 2],
      textureID := textureData.parent.textureID } := by
  unfold _updateFrame
  rw [hT]
  simp only []
  rw [writeAll_sixteen _ (vecResize_length _ _ _)]
  rfl

/-- With texture data present and no mesh display, `_updateMesh` is `_updateFrame`. -/
theorem updateMesh_eq_updateFrame (bo : BinaryOffset) (s : OpenGLSlot)
    (textureData : OpenGLTextureData)
    (hT : s._textureData = some textureData)
    (hD : ∀ d, s._displayData = some d → d.type ≠ DisplayType.Mesh) :
    _updateMesh bo s = _updateFrame s := by
  unfold _updateMesh
  split
  · simp_all
  · split
    · rfl
    · rename_i d hd
      simp [hD d hd]

/-- Claim C1. A slot whose texture data is resolved and whose display data is absent or not of
`Mesh` type is rebuilt by `_updateMesh` (through `_updateFrame`) into exactly 16 floats, the four
vertices `(x, y, u, v)` top-left, top-right, bottom-left, bottom-right of the quad
`(∓w/2, ∓h/2)` with the UV extremes `region.x / atlasWidth`, `(region.x + region.width) /
atlasWidth`, `region.y / atlasHeight`, `(region.y + region.height) / atlasHeight`; the index
sequence is `[0, 1, 2, 1, 3, 2]` and `textureID` is the atlas's handle. -/
theorem updateMesh_flat_image (bo : BinaryOffset) (s : OpenGLSlot)
    (textureData : OpenGLTextureData)
    (hT : s._textureData = some textureData)
    (hD : ∀ d, s._displayData = some d → d.type ≠ DisplayType.Mesh) :
    _updateMesh bo s = some { s with
      vertices :=
        [-textureData.region.width / 2, -textureData.region.height / 2,
          textureData.region.x / textureData.parent.width,
          textureData.region.y / textureData.parent.height,
         textureData.region.width / 2, -textureData.region.height / 2,
          (textureData.region.x + textureData.region.width) / textureData.parent.width,
          textureData.region.y / textureData.parent.height,
         -textureData.region.width / 2, textureData.region.height / 2,
          textureData.region.x / textureData.parent.width,
          (textureData.region.y + textureData.region.height) / textureData.parent.height,
         textureData.region.width / 2, textureData.region.height / 2,
          (textureData.region.x + textureData.region.width) / textureData.parent.width,
          (textureData.region.y + textureData.region.height) / textureData.parent.height],
      indices := [0, 1, 2, 1, 3, 2],
      textureID := textureData.parent.textureID } := by
  rw [updateMesh_eq_updateFrame bo s textureData hT hD]
  exact updateFrame_quad s textureData hT

/-- The scenario of C1: the region `{x:0, y:0, w:100, h:50}` of a 200 x 200 atlas. -/
theorem updateMesh_flat_image_witness :
    flatSlot._textureData = some region100x50 ∧
    (∀ d, flatSlot._displayData = some d → d.type ≠ DisplayType.Mesh) ∧
    _updateMesh binaryOffset flatSlot = some { flatSlot with
      vertices := [-50, -25, 0, 0, 50, -25, 1 / 2, 0, -50, 25, 0, 1 / 4, 50, 25, 1 / 2, 1 / 4],
      indices := [0, 1, 2, 1, 3, 2],
      textureID := 7 } := by
  refine ⟨rfl, fun d h => by simp [flatSlot] at h, ?_⟩
  rw [updateMesh_flat_image binaryOffset flatSlot region100x50 rfl
    (fun d h => by simp [flatSlot] at h)]
  simp only [region100x50, atlas200]
  norm_num

/-! ## The mesh path: the claims -/

/-- Claim C10, amended to what the code does. For a mesh-bound slot with resolved texture and
topology data, `_updateMesh` returns; the index sequence has exactly `triangleCount * 3`
entries and entry `i` is the `i`-th entry of the triangle table that starts at the index
offset of the mesh, converted from `int16_t` to the unsigned 16-bit index type: the entry
itself when it is not negative, the entry plus `65536` when it is (same order, no winding
change); the vertex sequence has exactly `vertexCount * 4` floats, the floats `4i .. 4i+3`
being `(x, y, u, v)` of vertex `i`, position from the deform vertices when there are any and
from the base positions otherwise, UV from the UV table; and `textureID` is the handle of the
atlas that owns the texture region. -/
theorem updateMesh_indices_unsigned (bo : BinaryOffset) (s : OpenGLSlot)
    (textureData : OpenGLTextureData) (displayData : DisplayData) (data : DragonBonesData)
    (vertexCount triangleCount : Nat) (vertexOffset indexOffset : Int)
    (h : MeshInput bo s textureData displayData data vertexCount triangleCount vertexOffset
      indexOffset) :
    ∃ s', _updateMesh bo s = some s' ∧
      s'.indices.length = triangleCount * 3 ∧
      s'.indices
        = ((data.intArray.drop indexOffset.toNat).take (triangleCount * 3)).map toIndex ∧
      (∀ (i : Nat) (v : Int), i < triangleCount * 3 →
        readAt data.intArray (indexOffset + (i : Int)) = some v →
          (0 ≤ v → s'.indices[i]? = some v) ∧
          (v < 0 → s'.indices[i]? = some (v + 65536))) ∧
      s'.vertices.length = vertexCount * 4 ∧
      (∀ i, i < vertexCount →
        s'.vertices[4 * i]?
          = meshPosition data.floatArray s._deformVertices vertexOffset i 0 ∧
        s'.vertices[4 * i + 1]?
          = meshPosition data.floatArray s._deformVertices vertexOffset i 1 ∧
        s'.vertices[4 * i + 2]? =
          readAt data.floatArray (vertexOffset + 2 * (vertexCount : Int) + 2 * (i : Int)) ∧
        s'.vertices[4 * i + 3]? =
          readAt data.floatArray
            (vertexOffset + 2 * (vertexCount : Int) + 2 * (i : Int) + 1)) ∧
      s'.textureID = textureData.parent.textureID := by
  obtain ⟨vertices, indices, hrun, hIlen, hIget, hVlen, hVget⟩ :=
    updateMesh_mesh bo s textureData displayData data vertexCount triangleCount vertexOffset
      indexOffset h
  refine ⟨_, hrun, hIlen, ?_, ?_, hVlen, ?_, rfl⟩
  · obtain ⟨k, rfl⟩ := Int.eq_ofNat_of_zero_le h.indexRange.1
    have hk : k + triangleCount * 3 ≤ data.intArray.length := by
      have := h.indexRange.2
      exact_mod_cast this
    apply List.ext_getElem?
    intro i
    by_cases hi : i < triangleCount * 3
    · have := hIget i hi
      simp only [] at this ⊢
      have hcast : ((k : Nat) : Int) + (i : Int) = ((k + i : Nat) : Int) := by
        push_cast; rfl
      rw [this, List.getElem?_map, List.getElem?_take_of_lt hi, List.getElem?_drop, hcast,
        readAt_natCast]
      simp
    · simp only []
      rw [List.getElem?_eq_none (by omega), List.getElem?_eq_none (by simp; omega)]
  · intro i v hi hv
    have hstored : indices[i]? = some (toIndex v) := by
      rw [hIget i hi, hv, Option.map_some']
    refine ⟨fun h0 => ?_, fun h0 => ?_⟩
    · show indices[i]? = some v
      rw [hstored, toIndex_of_nonneg v h0]
    · show indices[i]? = some (v + 65536)
      rw [hstored, toIndex, if_pos h0]
  · intro i hi
    obtain ⟨hx, hy, hu, hv⟩ := hVget i hi
    have e2 : vertexOffset + 2 * (vertexCount : Int) + 2 * (i : Int)
        = vertexOffset + (vertexCount : Int) * 2 + (i : Int) * 2 := by ring
    simp only [Nat.mul_comm 4 i]
    exact ⟨hx, hy, by rw [hu, e2], by rw [hv, e2]⟩

/-- An instance of the amended C10: the triangle `{2, 0, 1}` of a mesh with three vertices. -/
theorem updateMesh_indices_unsigned_witness :
    ∃ s', _updateMesh binaryOffset (meshSlot [2, 0, 1] []) = some s' ∧
      s'.indices.length = 1 * 3 ∧
      s'.indices
        = (((triangleData [2, 0, 1]).intArray.drop (5 : Int).toNat).take (1 * 3)).map
            toIndex ∧
      (∀ (i : Nat) (v : Int), i < 1 * 3 →
        readAt (triangleData [2, 0, 1]).intArray ((5 : Int) + (i : Int)) = some v →
          (0 ≤ v → s'.indices[i]? = some v) ∧
          (v < 0 → s'.indices[i]? = some (v + 65536))) ∧
      s'.vertices.length = 3 * 4 ∧
      (∀ i : Nat, i < 3 →
        s'.vertices[4 * i]?
          = meshPosition (triangleData [2, 0, 1]).floatArray
              (meshSlot [2, 0, 1] [])._deformVertices 0 i 0 ∧
        s'.vertices[4 * i + 1]?
          = meshPosition (triangleData [2, 0, 1]).floatArray
              (meshSlot [2, 0, 1] [])._deformVertices 0 i 1 ∧
        s'.vertices[4 * i + 2]? =
          readAt (triangleData [2, 0, 1]).floatArray
            ((0 : Int) + 2 * ((3 : Nat) : Int) + 2 * (i : Int)) ∧
        s'.vertices[4 * i + 3]? =
          readAt (triangleData [2, 0, 1]).floatArray
            ((0 : Int) + 2 * ((3 : Nat) : Int) + 2 * (i : Int) + 1)) ∧
      s'.textureID = region100x50.parent.textureID :=
  updateMesh_indices_unsigned binaryOffset (meshSlot [2, 0, 1] []) region100x50 _ _ 3 1 0 5
    (meshSlot_input 2 0 1 [] (Or.inl rfl))

/-- Claim C10 as stated fails. For the triangle `{0, 1, -1}` of a mesh with three vertices the
third entry of the triangle table is `-1`, and the third entry of the rebuilt index sequence
is `65535`: the entry is not equal to the table's. -/
theorem updateMesh_negative_index_counterexample :
    readAt (triangleData [0, 1, -1]).intArray (5 + 2) = some (-1) ∧
    _updateMesh binaryOffset (meshSlot [0, 1, -1] [])
      = some { meshSlot [0, 1, -1] [] with
          vertices := [0, 0, 0, 0, 10, 0, 1, 0, 0, 10, 0, 1],
          indices := [0, 1, 65535],
          textureID := 7 } ∧
    ([0, 1, 65535] : List Int)[2]? ≠ some (-1) :=
  ⟨rfl, rfl, by decide⟩

/-- The rebuild of the triangle `{2, 0, 1}`, evaluated. -/
theorem meshSlot_rebuild_value :
    _updateMesh binaryOffset (meshSlot [2, 0, 1] [])
      = some { meshSlot [2, 0, 1] [] with
          vertices := [0, 0, 0, 0, 10, 0, 1, 0, 0, 10, 0, 1],
          indices := [2, 0, 1],
          textureID := 7 } := rfl

/-- Claim C3. For a mesh-bound slot with resolved texture and topology data, `_updateMesh`
returns and, for every vertex `i < vertexCount`, the floats `4i .. 4i+3` of the rebuilt vertex
buffer are `(x_i, y_i, u_i, v_i)`: the position is the base position
`floatArray[vertexOffset + 2i]`, `floatArray[vertexOffset + 2i + 1]` when there are no deform
vertices and the deform vertices `deform[2i]`, `deform[2i + 1]` when there are, and the UV is
the table entry `floatArray[vertexOffset + 2 * vertexCount + 2i]`, `... + 1` in both cases;
hence a rebuild of the same slot with any other deform vertices gives the same UVs. -/
theorem updateMesh_vertices (bo : BinaryOffset) (s : OpenGLSlot)
    (textureData : OpenGLTextureData) (displayData : DisplayData) (data : DragonBonesData)
    (vertexCount triangleCount : Nat) (vertexOffset indexOffset : Int)
    (h : MeshInput bo s textureData displayData data vertexCount triangleCount vertexOffset
      indexOffset) :
    ∃ s', _updateMesh bo s = some s' ∧
      s'.vertices.length = 4 * vertexCount ∧
      (∀ i, i < vertexCount →
        (s._deformVertices = [] →
          s'.vertices[4 * i]? = readAt data.floatArray (vertexOffset + 2 * (i : Int)) ∧
          s'.vertices[4 * i + 1]? = readAt data.floatArray (vertexOffset + 2 * (i : Int) + 1)) ∧
        (s._deformVertices ≠ [] →
          s'.vertices[4 * i]? = s._deformVertices[2 * i]? ∧
          s'.vertices[4 * i + 1]? = s._deformVertices[2 * i + 1]?) ∧
        s'.vertices[4 * i + 2]? =
          readAt data.floatArray (vertexOffset + 2 * (vertexCount : Int) + 2 * (i : Int)) ∧
        s'.vertices[4 * i + 3]? =
          readAt data.floatArray
            (vertexOffset + 2 * (vertexCount : Int) + 2 * (i : Int) + 1)) ∧
      (∀ deform : List ℚ, deform = [] ∨ 2 * vertexCount ≤ deform.length →
        ∃ s'', _updateMesh bo { s with _deformVertices := deform } = some s'' ∧
          ∀ i, i < vertexCount →
            s''.vertices[4 * i + 2]? = s'.vertices[4 * i + 2]? ∧
            s''.vertices[4 * i + 3]? = s'.vertices[4 * i + 3]?) := by
  obtain ⟨vertices, indices, hrun, -, -, hVlen, hVget⟩ :=
    updateMesh_mesh bo s textureData displayData data vertexCount triangleCount vertexOffset
      indexOffset h
  refine ⟨_, hrun, by simpa [Nat.mul_comm] using hVlen, ?_, ?_⟩
  · intro i hi
    obtain ⟨hx, hy, hu, hv⟩ := hVget i hi
    have e0 : vertexOffset + 2 * (i : Int) = vertexOffset + (i : Int) * 2 + ((0 : Nat) : Int) := by
      push_cast; ring
    have e1 : vertexOffset + 2 * (i : Int) + 1
        = vertexOffset + (i : Int) * 2 + ((1 : Nat) : Int) := by
      push_cast; ring
    have e2 : vertexOffset + 2 * (vertexCount : Int) + 2 * (i : Int)
        = vertexOffset + (vertexCount : Int) * 2 + (i : Int) * 2 := by ring
    have d0 : ((2 * i : Nat) : Int) = (i : Int) * 2 + ((0 : Nat) : Int) := by push_cast; ring
    have d1 : ((2 * i + 1 : Nat) : Int) = (i : Int) * 2 + ((1 : Nat) : Int) := by
      push_cast; ring
    simp only [Nat.mul_comm 4 i]
    refine ⟨fun hd => ?_, fun hd => ?_, ?_, ?_⟩
    · rw [hx, hy, e1, e0]
      simp [meshPosition, hd]
    · rw [hx, hy, ← readAt_natCast, ← readAt_natCast, d0, d1]
      cases hdv : s._deformVertices with
      | nil => exact absurd hdv hd
      | cons a l => simp [meshPosition]
    · rw [hu, e2]
    · rw [hv, e2]
  · intro deform hdeform
    have h2 : MeshInput bo { s with _deformVertices := deform } textureData displayData data
        vertexCount triangleCount vertexOffset indexOffset :=
      { texture := h.texture, display := h.display, mesh := h.mesh, tables := h.tables,
        readVertexCount := h.readVertexCount, readTriangleCount := h.readTriangleCount,
        readVertexOffset := h.readVertexOffset, readIndexOffset := h.readIndexOffset,
        indexRange := h.indexRange, floatRange := h.floatRange, deformRange := hdeform }
    obtain ⟨vertices2, indices2, hrun2, -, -, -, hVget2⟩ :=
      updateMesh_mesh bo _ textureData displayData data vertexCount triangleCount vertexOffset
        indexOffset h2
    refine ⟨_, hrun2, ?_⟩
    intro i hi
    obtain ⟨-, -, hu, hv⟩ := hVget i hi
    obtain ⟨-, -, hu2, hv2⟩ := hVget2 i hi
    simp only [Nat.mul_comm 4 i]
    exact ⟨hu2.trans hu.symm, hv2.trans hv.symm⟩


/-- An instance of C3: three vertices with populated deform vertices. -/
theorem updateMesh_vertices_witness :
    ∃ s', _updateMesh binaryOffset (meshSlot [0, 1, 2] [1, 2, 3, 4, 5, 6]) = some s' ∧
      s'.vertices.length = 4 * 3 ∧
      (∀ i : Nat, i < 3 →
        ((meshSlot [0, 1, 2] [1, 2, 3, 4, 5, 6])._deformVertices = [] →
          s'.vertices[4 * i]?
            = readAt (triangleData [0, 1, 2]).floatArray ((0 : Int) + 2 * (i : Int)) ∧
          s'.vertices[4 * i + 1]?
            = readAt (triangleData [0, 1, 2]).floatArray ((0 : Int) + 2 * (i : Int) + 1)) ∧
        ((meshSlot [0, 1, 2] [1, 2, 3, 4, 5, 6])._deformVertices ≠ [] →
          s'.vertices[4 * i]? = (meshSlot [0, 1, 2] [1, 2, 3, 4, 5, 6])._deformVertices[2 * i]? ∧
          s'.vertices[4 * i + 1]?
            = (meshSlot [0, 1, 2] [1, 2, 3, 4, 5, 6])._deformVertices[2 * i + 1]?) ∧
        s'.vertices[4 * i + 2]? =
          readAt (triangleData [0, 1, 2]).floatArray
            ((0 : Int) + 2 * ((3 : Nat) : Int) + 2 * (i : Int)) ∧
        s'.vertices[4 * i + 3]? =
          readAt (triangleData [0, 1, 2]).floatArray
            ((0 : Int) + 2 * ((3 : Nat) : Int) + 2 * (i : Int) + 1)) ∧
      (∀ deform : List ℚ, deform = [] ∨ 2 * 3 ≤ deform.length →
        ∃ s'', _updateMesh binaryOffset
            { meshSlot [0, 1, 2] [1, 2, 3, 4, 5, 6] with _deformVertices := deform } = some s'' ∧
          ∀ i : Nat, i < 3 →
            s''.vertices[4 * i + 2]? = s'.vertices[4 * i + 2]? ∧
            s''.vertices[4 * i + 3]? = s'.vertices[4 * i + 3]?) :=
  updateMesh_vertices binaryOffset (meshSlot [0, 1, 2] [1, 2, 3, 4, 5, 6]) region100x50 _ _
    3 1 0 5 (meshSlot_input 0 1 2 [1, 2, 3, 4, 5, 6] (Or.inr (by simp)))

/-- Two rebuilds evaluated: with deform vertices the positions are the
deform vertices, without them the base positions; the UVs are the same. -/
theorem meshSlot_deform_rebuild_values :
    _updateMesh binaryOffset (meshSlot [0, 1, 2] [1, 2, 3, 4, 5, 6])
      = some { meshSlot [0, 1, 2] [1, 2, 3, 4, 5, 6] with
          vertices := [1, 2, 0, 0, 3, 4, 1, 0, 5, 6, 0, 1],
          indices := [0, 1, 2],
          textureID := 7 } ∧
    _updateMesh binaryOffset (meshSlot [0, 1, 2] [])
      = some { meshSlot [0, 1, 2] [] with
          vertices := [0, 0, 0, 0, 10, 0, 1, 0, 0, 10, 0, 1],
          indices := [0, 1, 2],
          textureID := 7 } := ⟨rfl, rfl⟩

/-- Claim C2, amended to what the code does. `_updateMesh` has no bound check on the triangle
indices.
For a mesh whose tables cover the ranges its header announces and in which entry `i` of the
`triangleCount * 3` used entries of the triangle table is a value `v ≥ vertexCount`, the
rebuild returns without reading a table out of bounds (the index values are only copied,
never used as subscripts), the value `v` is entry `i` of the rebuilt index sequence, and the
slot is left non-renderable exactly when `vertexCount = 0` or the atlas's `textureID` is `0`:
the mesh is not rejected. -/
theorem updateMesh_index_unchecked (bo : BinaryOffset) (s : OpenGLSlot)
    (textureData : OpenGLTextureData) (displayData : DisplayData) (data : DragonBonesData)
    (vertexCount triangleCount : Nat) (vertexOffset indexOffset : Int)
    (h : MeshInput bo s textureData displayData data vertexCount triangleCount vertexOffset
      indexOffset)
    (i : Nat) (v : Int) (hi : i < triangleCount * 3)
    (hv : readAt data.intArray (indexOffset + (i : Int)) = some v)
    (hbad : (vertexCount : Int) ≤ v) :
    ∃ s', _updateMesh bo s = some s' ∧
      s'.indices[i]? = some v ∧ (vertexCount : Int) ≤ v ∧
      (emptyGeometry s' = true ↔ vertexCount = 0 ∨ textureData.parent.textureID = 0) := by
  obtain ⟨vertices, indices, hrun, hIlen, hIget, hVlen, -⟩ :=
    updateMesh_mesh bo s textureData displayData data vertexCount triangleCount vertexOffset
      indexOffset h
  have hstored : indices[i]? = some v := by
    rw [hIget i hi, hv, Option.map_some', toIndex_of_nonneg v (by omega)]
  refine ⟨_, hrun, hstored, hbad, ?_⟩
  have hI : indices ≠ [] := by
    intro hnil
    rw [hnil] at hIlen
    simp at hIlen
    omega
  have hV : vertices = [] ↔ vertexCount = 0 := by
    rw [← List.length_eq_zero, hVlen]
    omega
  simp [emptyGeometry, List.isEmpty_iff, hI, hV]

/-- An instance of the amended C2: the triangle `{0, 1, 5}` of a mesh with three vertices. -/
theorem updateMesh_index_unchecked_witness :
    ∃ s', _updateMesh binaryOffset (meshSlot [0, 1, 5] []) = some s' ∧
      s'.indices[2]? = some 5 ∧ ((3 : Nat) : Int) ≤ 5 ∧
      (emptyGeometry s' = true ↔ 3 = 0 ∨ region100x50.parent.textureID = 0) :=
  updateMesh_index_unchecked binaryOffset (meshSlot [0, 1, 5] []) region100x50 _ _ 3 1 0 5
    (meshSlot_input 0 1 5 [] (Or.inl rfl)) 2 5 (by decide) rfl (by decide)

/-- Claim C2 as stated fails. The mesh of the specification's scenario (`vertexCount = 3`,
`triangleCount = 1`, the index value `5` in the triangle table) is not rejected: after
`_updateMesh` the slot has 12 vertex floats, the indices `[0, 1, 5]` and the atlas's texture
handle `7`, so the test for an undrawable geometry cache is false. -/
theorem updateMesh_bad_index_counterexample :
    (triangleData [0, 1, 5]).intArray[0 + binaryOffset.MeshVertexCount]? = some 3 ∧
    (triangleData [0, 1, 5]).intArray[0 + binaryOffset.MeshTriangleCount]? = some 1 ∧
    readAt (triangleData [0, 1, 5]).intArray (5 + 2) = some 5 ∧
    _updateMesh binaryOffset (meshSlot [0, 1, 5] [])
      = some { meshSlot [0, 1, 5] [] with
          vertices := [0, 0, 0, 0, 10, 0, 1, 0, 0, 10, 0, 1],
          indices := [0, 1, 5],
          textureID := 7 } ∧
    emptyGeometry { meshSlot [0, 1, 5] [] with
          vertices := [0, 0, 0, 0, 10, 0, 1, 0, 0, 10, 0, 1],
          indices := [0, 1, 5],
          textureID := 7 } = false :=
  ⟨rfl, rfl, rfl, rfl, rfl⟩

/-! ## The matrix helpers: basic facts -/

theorem fin_four_val_three : ((3 : Fin 4) : ℕ) = 3 := rfl

/-- Every cell of the product is the row-by-column sum. -/
theorem multiplyMatrices_cell (a b : Mat) (i j : Fin 4) :
    multiplyMatrices a b (j.val * 4 + i.val)
      = ∑ k : Fin 4, a (k.val * 4 + i.val) * b (j.val * 4 + k.val) := by
  fin_cases i <;> fin_cases j <;>
    simp [multiplyMatrices, freshMatrix, List.range, List.range.loop, assign, Function.update,
      Fin.sum_univ_four, fin_four_val_three]

/-- The loops of `multiplyMatrices` touch the sixteen cells of `res` only. -/
theorem multiplyMatrices_outside (a b : Mat) (n : Nat) (hn : 16 ≤ n) :
    multiplyMatrices a b n = 0 := by
  have h : ∀ m, m < 16 → n ≠ m := by intro m hm; omega
  simp [multiplyMatrices, freshMatrix, List.range, List.range.loop, assign, Function.update, h]

theorem toMatrix_multiplyMatrices (a b : Mat) :
    toMatrix (multiplyMatrices a b) = toMatrix a * toMatrix b := by
  ext r c
  simp only [toMatrix, Matrix.of_apply, Matrix.mul_apply]
  exact multiplyMatrices_cell a b r c

/-- Sixteen cells are determined by the matrix they encode. -/
theorem cell_eq_of_toMatrix_eq (x y : Mat) (h : toMatrix x = toMatrix y) (n : Nat)
    (hn : n < 16) : x n = y n := by
  have h1 := congrFun (congrFun h ⟨n % 4, Nat.mod_lt n (by decide)⟩)
    ⟨n / 4, by omega⟩
  simp only [toMatrix, Matrix.of_apply] at h1
  rwa [Nat.div_add_mod' n 4] at h1

/-! ## The matrix helpers: the claims -/

/-- Claim C5. On a memory of `float` cells and for all addresses `a`, `b`, `result` (distinct,
equal or overlapping), `multiplyMatrices(a, b, result)` stores at `result` the column-major
encoding of the matrix product of the matrices read at `a` and `b` before the call: cell
`j * 4 + i` is the sum over `k` of `a[k * 4 + i] * b[j * 4 + k]`. In particular
`multiply(a, a, a)` stores the square of the matrix at `a`. -/
theorem multiplyMatricesAt_product (mem : Nat → ℚ) (a b result : Nat) :
    (∀ i j : Fin 4,
      multiplyMatricesAt mem a b result (result + (j.val * 4 + i.val))
        = ∑ k : Fin 4, mem (a + (k.val * 4 + i.val)) * mem (b + (j.val * 4 + k.val))) ∧
    toMatrix (fun n => multiplyMatricesAt mem a b result (result + n))
      = toMatrix (fun n => mem (a + n)) * toMatrix (fun n => mem (b + n)) ∧
    toMatrix (fun n => multiplyMatricesAt mem a a a (a + n))
      = toMatrix (fun n => mem (a + n)) * toMatrix (fun n => mem (a + n)) := by
  have key : ∀ (x y r : Nat) (i j : Fin 4),
      multiplyMatricesAt mem x y r (r + (j.val * 4 + i.val))
        = ∑ k : Fin 4, mem (x + (k.val * 4 + i.val)) * mem (y + (j.val * 4 + k.val)) := by
    intro x y r i j
    have hlt : r + (j.val * 4 + i.val) < r + 16 := by omega
    simp only [multiplyMatricesAt, Nat.le_add_right, hlt, and_self, if_true,
      Nat.add_sub_cancel_left]
    exact multiplyMatrices_cell _ _ i j
  refine ⟨key a b result, ?_, ?_⟩
  · ext r c
    simp only [toMatrix, Matrix.of_apply, Matrix.mul_apply]
    exact key a b result r c
  · ext r c
    simp only [toMatrix, Matrix.of_apply, Matrix.mul_apply]
    exact key a a a r c

/-- Claim C9. `multiplyMatrices` is associative over exact arithmetic:
`multiply(multiply(A, B), C)` and `multiply(A, multiply(B, C))` agree in every cell. -/
theorem multiplyMatrices_assoc (A B C : Mat) :
    multiplyMatrices (multiplyMatrices A B) C = multiplyMatrices A (multiplyMatrices B C) := by
  funext n
  by_cases hn : n < 16
  · apply cell_eq_of_toMatrix_eq _ _ _ n hn
    rw [toMatrix_multiplyMatrices, toMatrix_multiplyMatrices, toMatrix_multiplyMatrices,
      toMatrix_multiplyMatrices, Matrix.mul_assoc]
  · rw [multiplyMatrices_outside _ _ n (by omega), multiplyMatrices_outside _ _ n (by omega)]

/-- Claim C6. The MVP matrix that `onDrawFrame` uploads for a slot is
`multiplyMatrices(multiplyMatrices(P, V), M)` with `M` the slot's model matrix, and for all
`P`, `V`, `M` that matrix encodes the product `P × (V × M)`; applied to a column vector it
applies `M` first, then `V`, then `P`. -/
theorem drawSlot_mvp (P V M : Mat) (slot : OpenGLSlot) (p : Fin 4 → ℚ) :
    (drawSlot P V slot).mvpMatrix
      = multiplyMatrices (multiplyMatrices P V)
          (convertDBMatrixToGL slot.globalTransformMatrix freshMatrix) ∧
    toMatrix (multiplyMatrices (multiplyMatrices P V) M) = specMVP P V M ∧
    (toMatrix (multiplyMatrices (multiplyMatrices P V) M)).mulVec p
      = (toMatrix P).mulVec ((toMatrix V).mulVec ((toMatrix M).mulVec p)) := by
  have h : toMatrix (multiplyMatrices (multiplyMatrices P V) M) = specMVP P V M := by
    rw [toMatrix_multiplyMatrices, toMatrix_multiplyMatrices, Matrix.mul_assoc, specMVP]
  refine ⟨rfl, h, ?_⟩
  rw [h, specMVP, Matrix.mulVec_mulVec, Matrix.mulVec_mulVec, Matrix.mul_assoc]

/-- The matrix that `convertDBMatrixToGL` builds. -/
theorem toMatrix_convertDBMatrixToGL (m : Matrix2D) (glMatrix : Mat) :
    toMatrix (convertDBMatrixToGL m glMatrix)
      = !![m.a, m.c, 0, m.tx; m.b, m.d, 0, m.ty; 0, 0, 1, 0; 0, 0, 0, 1] := by
  ext r c
  fin_cases r <;> fin_cases c <;>
    simp [toMatrix, convertDBMatrixToGL, createIdentityMatrix, assign, Function.update,
      fin_four_val_three, Matrix.vecHead, Matrix.vecTail]

/-- Claim C7, amended to what the code does. For every 2D affine transform `(a, b, c, d, tx, ty)`,
`convertDBMatrixToGL` builds the column-major matrix whose first column is `(a, b, 0, 0)` and
whose second column is `(c, d, 0, 0)`, that is entry(0,0) = a, entry(1,0) = b, entry(0,1) = c,
entry(1,1) = d (entry(r, col) stored at `col * 4 + r`), whose translation column is
`(tx, ty, 0, 1)` and whose other entries are the identity's; it maps `(x, y, 0, 1)` to
`(a x + c y + tx, b x + d y + ty, 0, 1)`. -/
theorem convertDBMatrixToGL_columns (m : Matrix2D) (glMatrix : Mat) (x y : ℚ) :
    toMatrix (convertDBMatrixToGL m glMatrix)
      = !![m.a, m.c, 0, m.tx; m.b, m.d, 0, m.ty; 0, 0, 1, 0; 0, 0, 0, 1] ∧
    convertDBMatrixToGL m glMatrix (0 * 4 + 0) = m.a ∧
    convertDBMatrixToGL m glMatrix (0 * 4 + 1) = m.b ∧
    convertDBMatrixToGL m glMatrix (1 * 4 + 0) = m.c ∧
    convertDBMatrixToGL m glMatrix (1 * 4 + 1) = m.d ∧
    (toMatrix (convertDBMatrixToGL m glMatrix)).mulVec (point x y 0 1)
      = point (m.a * x + m.c * y + m.tx) (m.b * x + m.d * y + m.ty) 0 1 := by
  refine ⟨toMatrix_convertDBMatrixToGL m glMatrix, ?_, ?_, ?_, ?_, ?_⟩
  · simp [convertDBMatrixToGL, createIdentityMatrix, assign, Function.update]
  · simp [convertDBMatrixToGL, createIdentityMatrix, assign, Function.update]
  · simp [convertDBMatrixToGL, createIdentityMatrix, assign, Function.update]
  · simp [convertDBMatrixToGL, createIdentityMatrix, assign, Function.update]
  · rw [toMatrix_convertDBMatrixToGL]
    funext r
    fin_cases r <;>
      simp [point, Matrix.mulVec, Matrix.dotProduct, Fin.sum_univ_four]

/-- Claim C7 as stated fails. For the transform `(a, b, c, d) = (1, 2, 3, 4)` the entry at row
0, column 1 (cell `1 * 4 + 0`) is `c = 3`, not `b = 2`, the entry at row 1, column 0 (cell
`0 * 4 + 1`) is `b = 2`, not `c = 3`, and the point `(0, 1, 0, 1)` goes to `(3, 4, 0, 1)`,
not to `(a x + b y + tx, c x + d y + ty, 0, 1) = (2, 4, 0, 1)`. -/
theorem convertDBMatrixToGL_rows_counterexample :
    convertDBMatrixToGL { a := 1, b := 2, c := 3, d := 4, tx := 0, ty := 0 } freshMatrix
        (1 * 4 + 0) = 3 ∧
    convertDBMatrixToGL { a := 1, b := 2, c := 3, d := 4, tx := 0, ty := 0 } freshMatrix
        (0 * 4 + 1) = 2 ∧
    (toMatrix (convertDBMatrixToGL { a := 1, b := 2, c := 3, d := 4, tx := 0, ty := 0 }
        freshMatrix)).mulVec (point 0 1 0 1) = point 3 4 0 1 ∧
    point 3 4 0 1 ≠ point (1 * 0 + 2 * 1 + 0) (3 * 0 + 4 * 1 + 0) 0 1 := by
  refine ⟨?_, ?_, ?_, ?_⟩
  · simp [convertDBMatrixToGL, createIdentityMatrix, assign, Function.update]
  · simp [convertDBMatrixToGL, createIdentityMatrix, assign, Function.update]
  · rw [toMatrix_convertDBMatrixToGL]
    funext r
    fin_cases r <;>
      simp [point, Matrix.mulVec, Matrix.dotProduct, Fin.sum_univ_four]
  · intro h
    have h0 := congrFun h 0
    simp [point] at h0


/-- The matrix that `createOrthographicMatrix` builds. -/
theorem toMatrix_createOrthographicMatrix (left right bottom top near far : ℚ) (matrix : Mat) :
    toMatrix (createOrthographicMatrix left right bottom top near far matrix)
      = !![2 / (right - left), 0, 0, -(right + left) / (right - left);
           0, 2 / (top - bottom), 0, -(top + bottom) / (top - bottom);
           0, 0, -2 / (far - near), -(far + near) / (far - near);
           0, 0, 0, 1] := by
  ext r c
  fin_cases r <;> fin_cases c <;>
    simp [toMatrix, createOrthographicMatrix, assign, Function.update,
      fin_four_val_three, Matrix.vecHead, Matrix.vecTail]

/-- The image of a point with `w = 1` under the orthographic matrix. -/
theorem createOrthographicMatrix_mulVec (left right bottom top near far : ℚ) (matrix : Mat)
    (x y z : ℚ) :
    (toMatrix (createOrthographicMatrix left right bottom top near far matrix)).mulVec
        (point x y z 1)
      = point (2 / (right - left) * x + -(right + left) / (right - left))
          (2 / (top - bottom) * y + -(top + bottom) / (top - bottom))
          (-2 / (far - near) * z + -(far + near) / (far - near)) 1 := by
  rw [toMatrix_createOrthographicMatrix]
  funext r
  fin_cases r <;>
    simp [point, Matrix.mulVec, Matrix.dotProduct, Fin.sum_univ_four]

/-- The orthographic matrix sends the clip planes to the faces of the NDC cube. -/
theorem createOrthographicMatrix_planes (left right bottom top near far : ℚ) (matrix : Mat)
    (hx : left ≠ right) (hy : bottom ≠ top) (hz : near ≠ far) (x y z : ℚ) :
    (toMatrix (createOrthographicMatrix left right bottom top near far matrix)).mulVec
        (point left y z 1) 0 = -1 ∧
    (toMatrix (createOrthographicMatrix left right bottom top near far matrix)).mulVec
        (point right y z 1) 0 = 1 ∧
    (toMatrix (createOrthographicMatrix left right bottom top near far matrix)).mulVec
        (point x bottom z 1) 1 = -1 ∧
    (toMatrix (createOrthographicMatrix left right bottom top near far matrix)).mulVec
        (point x top z 1) 1 = 1 ∧
    (toMatrix (createOrthographicMatrix left right bottom top near far matrix)).mulVec
        (point x y (-near) 1) 2 = -1 ∧
    (toMatrix (createOrthographicMatrix left right bottom top near far matrix)).mulVec
        (point x y (-far) 1) 2 = 1 ∧
    (toMatrix (createOrthographicMatrix left right bottom top near far matrix)).mulVec
        (point x y z 1) 3 = 1 := by
  have h1 : right - left ≠ 0 := sub_ne_zero.mpr (Ne.symm hx)
  have h2 : top - bottom ≠ 0 := sub_ne_zero.mpr (Ne.symm hy)
  have h3 : far - near ≠ 0 := sub_ne_zero.mpr (Ne.symm hz)
  simp only [createOrthographicMatrix_mulVec]
  refine ⟨?_, ?_, ?_, ?_, ?_, ?_, ?_⟩
  · show 2 / (right - left) * left + -(right + left) / (right - left) = -1
    field_simp; ring
  · show 2 / (right - left) * right + -(right + left) / (right - left) = 1
    field_simp; ring
  · show 2 / (top - bottom) * bottom + -(top + bottom) / (top - bottom) = -1
    field_simp; ring
  · show 2 / (top - bottom) * top + -(top + bottom) / (top - bottom) = 1
    field_simp; ring
  · show -2 / (far - near) * -near + -(far + near) / (far - near) = -1
    field_simp; ring
  · show -2 / (far - near) * -far + -(far + near) / (far - near) = 1
    field_simp; ring
  · rfl

/-- Claim C8, amended to exact arithmetic. Over exact arithmetic (the quotients of
`createOrthographicMatrix` taken exactly, not rounded to binary32) and for clip planes with
`left ≠ right`, `bottom ≠ top`, `near ≠ far`, the matrix, applied to `(x, y, z, 1)`, sends
`x = left` to `-1` and `x = right` to `1`, `y = bottom` to `-1` and `y = top` to `1`,
`z = -near` to `-1` and `z = -far` to `1`, and keeps `w = 1`. For `W ≠ 0`, `H ≠ 0` the
projection that `onSurfaceChanged` installs, `Orthographic(0, W, H, 0, -1, 1)`, sends the
point `(0, 0)` to `(-1, 1)` and the point `(W, H)` to `(1, -1)`. -/
theorem createOrthographicMatrix_ndc (left right bottom top near far : ℚ) (matrix : Mat)
    (inst : JniBridgeInstance) (W H : Int)
    (hx : left ≠ right) (hy : bottom ≠ top) (hz : near ≠ far) (hW : W ≠ 0) (hH : H ≠ 0) :
    (∀ x y z : ℚ,
      (toMatrix (createOrthographicMatrix left right bottom top near far matrix)).mulVec
          (point left y z 1) 0 = -1 ∧
      (toMatrix (createOrthographicMatrix left right bottom top near far matrix)).mulVec
          (point right y z 1) 0 = 1 ∧
      (toMatrix (createOrthographicMatrix left right bottom top near far matrix)).mulVec
          (point x bottom z 1) 1 = -1 ∧
      (toMatrix (createOrthographicMatrix left right bottom top near far matrix)).mulVec
          (point x top z 1) 1 = 1 ∧
      (toMatrix (createOrthographicMatrix left right bottom top near far matrix)).mulVec
          (point x y (-near) 1) 2 = -1 ∧
      (toMatrix (createOrthographicMatrix left right bottom top near far matrix)).mulVec
          (point x y (-far) 1) 2 = 1 ∧
      (toMatrix (createOrthographicMatrix left right bottom top near far matrix)).mulVec
          (point x y z 1) 3 = 1) ∧
    (onSurfaceChanged inst W H).projectionMatrix
      = createOrthographicMatrix 0 (W : ℚ) (H : ℚ) 0 (-1) 1 inst.projectionMatrix ∧
    (∀ z : ℚ,
      (toMatrix (onSurfaceChanged inst W H).projectionMatrix).mulVec (point 0 0 z 1) 0 = -1 ∧
      (toMatrix (onSurfaceChanged inst W H).projectionMatrix).mulVec (point 0 0 z 1) 1 = 1 ∧
      (toMatrix (onSurfaceChanged inst W H).projectionMatrix).mulVec
          (point (W : ℚ) (H : ℚ) z 1) 0 = 1 ∧
      (toMatrix (onSurfaceChanged inst W H).projectionMatrix).mulVec
          (point (W : ℚ) (H : ℚ) z 1) 1 = -1) := by
  have hW' : (0 : ℚ) ≠ (W : ℚ) := by exact_mod_cast hW.symm
  have hH' : (H : ℚ) ≠ 0 := by exact_mod_cast hH
  refine ⟨fun x y z =>
    createOrthographicMatrix_planes left right bottom top near far matrix hx hy hz x y z,
    rfl, fun z => ?_⟩
  have hp : (onSurfaceChanged inst W H).projectionMatrix
      = createOrthographicMatrix 0 (W : ℚ) (H : ℚ) 0 (-1) 1 inst.projectionMatrix := rfl
  rw [hp]
  have hA := createOrthographicMatrix_planes 0 (W : ℚ) (H : ℚ) 0 (-1) 1 inst.projectionMatrix
    hW' hH' (by norm_num) 0 0 z
  have hB := createOrthographicMatrix_planes 0 (W : ℚ) (H : ℚ) 0 (-1) 1 inst.projectionMatrix
    hW' hH' (by norm_num) (W : ℚ) (H : ℚ) z
  exact ⟨hA.1, hA.2.2.2.1, hB.2.1, hB.2.2.1⟩

/-- An instance of C8: the projection of a 1080 x 1920 surface sends the pixel `(0, 0)` to
`(-1, 1)` and the pixel `(1080, 1920)` to `(1, -1)`. -/
theorem createOrthographicMatrix_ndc_witness :
    (toMatrix (onSurfaceChanged
        { armature := none, projectionMatrix := freshMatrix, viewportWidth := 0,
          viewportHeight := 0 } 1080 1920).projectionMatrix).mulVec (point 0 0 0 1) 0 = -1 ∧
    (toMatrix (onSurfaceChanged
        { armature := none, projectionMatrix := freshMatrix, viewportWidth := 0,
          viewportHeight := 0 } 1080 1920).projectionMatrix).mulVec (point 0 0 0 1) 1 = 1 ∧
    (toMatrix (onSurfaceChanged
        { armature := none, projectionMatrix := freshMatrix, viewportWidth := 0,
          viewportHeight := 0 } 1080 1920).projectionMatrix).mulVec
        (point ((1080 : Int) : ℚ) ((1920 : Int) : ℚ) 0 1) 0 = 1 ∧
    (toMatrix (onSurfaceChanged
        { armature := none, projectionMatrix := freshMatrix, viewportWidth := 0,
          viewportHeight := 0 } 1080 1920).projectionMatrix).mulVec
        (point ((1080 : Int) : ℚ) ((1920 : Int) : ℚ) 0 1) 1 = -1 :=
  (createOrthographicMatrix_ndc 0 1080 1920 0 (-1) 1 freshMatrix
    { armature := none, projectionMatrix := freshMatrix, viewportWidth := 0,
      viewportHeight := 0 } 1080 1920
    (by norm_num) (by norm_num) (by norm_num) (by decide) (by decide)).2.2 0

/-! ### The orthographic matrix in binary32 -/

theorem roundNearestEven_of_lt (q : ℚ) (n : ℤ) (h1 : (n : ℚ) ≤ q) (h2 : q < n + 1 / 2) :
    roundNearestEven q = n := by
  have hf : ⌊q⌋ = n := Int.floor_eq_iff.mpr ⟨h1, by linarith⟩
  unfold roundNearestEven
  rw [hf, if_pos (by linarith)]

/-- The value of `binary32` on a number whose binade is known. -/
theorem binary32_of_binade (q : ℚ) (e : ℤ) (h1 : (2 : ℚ) ^ e ≤ |q|)
    (h2 : |q| < (2 : ℚ) ^ (e + 1)) (he : -126 ≤ e) :
    binary32 q = (roundNearestEven (q / 2 ^ (e - 23)) : ℚ) * 2 ^ (e - 23) := by
  have hpos : (0 : ℚ) < |q| := lt_of_lt_of_le (by positivity) h1
  have hlog : Int.log 2 |q| = e := by
    apply le_antisymm
    · have := (Int.lt_zpow_iff_log_lt (by norm_num : 1 < 2) hpos).mp (by exact_mod_cast h2)
      omega
    · exact (Int.zpow_le_iff_le_log (by norm_num : 1 < 2) hpos).mp (by exact_mod_cast h1)
  unfold binary32
  rw [hlog, max_eq_left he]

/-- The binary32 values that the projection of a 854 x 480 surface needs. -/
theorem binary32_values :
    binary32 854 = 854 ∧ binary32 (-480) = -480 ∧ binary32 480 = 480 ∧
    binary32 1 = 1 ∧ binary32 (-1) = -1 ∧
    binary32 (2 / 854) = 10058471 / 2 ^ 32 ∧
    binary32 (2 / -480) = -8947849 / 2 ^ 31 ∧
    binary32 (10058471 / 2 ^ 32 * 854) = 2 - 1 / 2 ^ 23 ∧
    binary32 (2 - 1 / 2 ^ 23 + -1) = 1 - 1 / 2 ^ 23 := by
  refine ⟨?_, ?_, ?_, ?_, ?_, ?_, ?_, ?_, ?_⟩
  · rw [binary32_of_binade 854 9 (by norm_num) (by norm_num) (by norm_num),
      roundNearestEven_of_lt _ 13991936 (by norm_num) (by norm_num)]
    norm_num
  · rw [binary32_of_binade (-480) 8 (by norm_num) (by norm_num) (by norm_num),
      roundNearestEven_of_lt _ (-15728640) (by norm_num) (by norm_num)]
    norm_num
  · rw [binary32_of_binade 480 8 (by norm_num) (by norm_num) (by norm_num),
      roundNearestEven_of_lt _ 15728640 (by norm_num) (by norm_num)]
    norm_num
  · rw [binary32_of_binade 1 0 (by norm_num) (by norm_num) (by norm_num),
      roundNearestEven_of_lt _ 8388608 (by norm_num) (by norm_num)]
    norm_num
  · rw [binary32_of_binade (-1) 0 (by norm_num) (by norm_num) (by norm_num),
      roundNearestEven_of_lt _ (-8388608) (by norm_num) (by norm_num)]
    norm_num
  · rw [binary32_of_binade (2 / 854) (-9) (by norm_num [abs_of_pos])
        (by norm_num [abs_of_pos]) (by norm_num),
      roundNearestEven_of_lt _ 10058471 (by norm_num) (by norm_num)]
    norm_num
  · rw [binary32_of_binade (2 / -480) (-8) (by norm_num [abs_of_neg])
        (by norm_num [abs_of_neg]) (by norm_num),
      roundNearestEven_of_lt _ (-8947849) (by norm_num) (by norm_num)]
    norm_num
  · rw [binary32_of_binade (10058471 / 2 ^ 32 * 854) 0 (by norm_num [abs_of_pos])
        (by norm_num [abs_of_pos]) (by norm_num),
      roundNearestEven_of_lt _ 16777215 (by norm_num) (by norm_num)]
    norm_num
  · rw [binary32_of_binade (2 - 1 / 2 ^ 23 + -1) (-1) (by norm_num [abs_of_pos])
        (by norm_num [abs_of_pos]) (by norm_num),
      roundNearestEven_of_lt _ 16777214 (by norm_num) (by norm_num)]
    norm_num

/-- The first two rows of a column-major matrix applied to a point. -/
theorem toMatrix_mulVec_point (m : Mat) (x y z w : ℚ) :
    (toMatrix m).mulVec (point x y z w) 0 = m 0 * x + m 4 * y + m 8 * z + m 12 * w ∧
    (toMatrix m).mulVec (point x y z w) 1 = m 1 * x + m 5 * y + m 9 * z + m 13 * w := by
  constructor <;>
    simp [toMatrix, point, Matrix.mulVec, Matrix.dotProduct, Fin.sum_univ_four,
      fin_four_val_three]

/-- The cells of the first two rows of the binary32 orthographic matrix. -/
theorem createOrthographicMatrix32_cells (left right bottom top near far : ℚ) (matrix : Mat) :
    createOrthographicMatrix32 left right bottom top near far matrix 0
      = binary32 (2 / binary32 (right - left)) ∧
    createOrthographicMatrix32 left right bottom top near far matrix 4 = 0 ∧
    createOrthographicMatrix32 left right bottom top near far matrix 8 = 0 ∧
    createOrthographicMatrix32 left right bottom top near far matrix 12
      = binary32 (-binary32 (right + left) / binary32 (right - left)) ∧
    createOrthographicMatrix32 left right bottom top near far matrix 1 = 0 ∧
    createOrthographicMatrix32 left right bottom top near far matrix 5
      = binary32 (2 / binary32 (top - bottom)) ∧
    createOrthographicMatrix32 left right bottom top near far matrix 9 = 0 ∧
    createOrthographicMatrix32 left right bottom top near far matrix 13
      = binary32 (-binary32 (top + bottom) / binary32 (top - bottom)) := by
  refine ⟨?_, ?_, ?_, ?_, ?_, ?_, ?_, ?_⟩ <;>
    simp [createOrthographicMatrix32, assign, Function.update]

/-- Claim C8 as stated fails. In binary32, the arithmetic of the code, the projection of a
854 x 480 surface, `Orthographic(0, 854, 480, 0, -1, 1)`, stores `2 / 854` rounded to
`10058471 / 2 ^ 32` and `2 / -480` rounded to `-8947849 / 2 ^ 31`. The stored matrix sends the
point `(0, 0)` to `(-1, 1)`, but the point `(854, 480)` to
`(1 - 179 / 2 ^ 31, -1 - 7 / 2 ^ 26)` when it is applied exactly, and its first row sends
`x = 854` to `1 - 1 / 2 ^ 23` when the product and the sum are binary32 operations too:
`x = right` does not go to `1`. -/
theorem createOrthographicMatrix32_counterexample :
    createOrthographicMatrix32 0 854 480 0 (-1) 1 freshMatrix 0 = 10058471 / 2 ^ 32 ∧
    createOrthographicMatrix32 0 854 480 0 (-1) 1 freshMatrix 5 = -8947849 / 2 ^ 31 ∧
    createOrthographicMatrix32 0 854 480 0 (-1) 1 freshMatrix 12 = -1 ∧
    (toMatrix (createOrthographicMatrix32 0 854 480 0 (-1) 1 freshMatrix)).mulVec
        (point 0 0 0 1) 0 = -1 ∧
    (toMatrix (createOrthographicMatrix32 0 854 480 0 (-1) 1 freshMatrix)).mulVec
        (point 0 0 0 1) 1 = 1 ∧
    (toMatrix (createOrthographicMatrix32 0 854 480 0 (-1) 1 freshMatrix)).mulVec
        (point 854 480 0 1) 0 = 1 - 179 / 2 ^ 31 ∧
    (toMatrix (createOrthographicMatrix32 0 854 480 0 (-1) 1 freshMatrix)).mulVec
        (point 854 480 0 1) 1 = -1 - 7 / 2 ^ 26 ∧
    binary32
        (binary32 (createOrthographicMatrix32 0 854 480 0 (-1) 1 freshMatrix 0 * 854)
          + createOrthographicMatrix32 0 854 480 0 (-1) 1 freshMatrix 12)
      = 1 - 1 / 2 ^ 23 ∧
    (1 - 179 / 2 ^ 31 : ℚ) ≠ 1 ∧ (-1 - 7 / 2 ^ 26 : ℚ) ≠ -1 ∧
    (1 - 1 / 2 ^ 23 : ℚ) ≠ 1 := by
  obtain ⟨b854, bm480, b480, b1, bm1, bx, by', bprod, bsum⟩ := binary32_values
  obtain ⟨c0, c4, c8, c12, c1, c5, c9, c13⟩ :=
    createOrthographicMatrix32_cells 0 854 480 0 (-1) 1 freshMatrix
  have h0 : createOrthographicMatrix32 0 854 480 0 (-1) 1 freshMatrix 0
      = 10058471 / 2 ^ 32 := by
    rw [c0, sub_zero, b854, bx]
  have h5 : createOrthographicMatrix32 0 854 480 0 (-1) 1 freshMatrix 5
      = -8947849 / 2 ^ 31 := by
    rw [c5, zero_sub, bm480, by']
  have h12 : createOrthographicMatrix32 0 854 480 0 (-1) 1 freshMatrix 12 = -1 := by
    rw [c12, sub_zero, add_zero, b854]
    norm_num
    exact bm1
  have h13 : createOrthographicMatrix32 0 854 480 0 (-1) 1 freshMatrix 13 = 1 := by
    rw [c13, zero_sub, zero_add, bm480, b480]
    norm_num
    exact b1
  refine ⟨h0, h5, h12, ?_, ?_, ?_, ?_, ?_, by norm_num, by norm_num, by norm_num⟩
  · rw [(toMatrix_mulVec_point _ _ _ _ _).1, h0, c4, c8, h12]; norm_num
  · rw [(toMatrix_mulVec_point _ _ _ _ _).2, c1, h5, c9, h13]; norm_num
  · rw [(toMatrix_mulVec_point _ _ _ _ _).1, h0, c4, c8, h12]; norm_num
  · rw [(toMatrix_mulVec_point _ _ _ _ _).2, c1, h5, c9, h13]; norm_num
  · rw [h0, h12, bprod, bsum]

/-! ## The draw loop -/

/-- The three tests of the loop body agree with the eligibility of the specification. -/
theorem drawSlots_cons (P V : Mat) (o : Option OpenGLSlot) (slots : List (Option OpenGLSlot)) :
    drawSlots P V (o :: slots)
      = (if eligible o then (o.map (drawSlot P V)).toList else []) ++ drawSlots P V slots := by
  cases o with
  | none => simp [drawSlots, eligible]
  | some slot =>
    rw [drawSlots]
    cases hv : slot._visible <;> cases hd : slot._display <;>
      cases hvs : slot.vertices.isEmpty <;> cases his : slot.indices.isEmpty <;>
      by_cases ht : slot.textureID = 0 <;>
      simp [eligible, emptyGeometry, hv, hd, hvs, his, ht]

theorem drawSlots_eq_filter (P V : Mat) (slots : List (Option OpenGLSlot)) :
    drawSlots P V slots = (slots.filter eligible).filterMap (Option.map (drawSlot P V)) := by
  induction slots with
  | nil => simp [drawSlots]
  | cons o slots ih =>
    rw [drawSlots_cons, ih]
    cases he : eligible o
    · simp [List.filter_cons, he]
    · cases o with
      | none => simp [eligible] at he
      | some slot => simp [List.filter_cons, he]


/-- Claim C4. With an armature built, the draw calls that `onDrawFrame` issues are exactly the
slot sequence (as the clock advance leaves it), filtered by "non-null, visible, has a display,
non-empty vertices, non-empty indices, `textureID ≠ 0`", in the same order, one call per
remaining slot; a single entry yields a draw call if and only if it passes that filter; and a
slot that is hidden, has no indices or has `textureID = 0` yields none. -/
theorem onDrawFrame_draws (advanceTime : List (Option OpenGLSlot) → List (Option OpenGLSlot))
    (inst : JniBridgeInstance) (slots : List (Option OpenGLSlot))
    (h : inst.armature = some slots) :
    onDrawFrame advanceTime inst
      = ((advanceTime slots).filter eligible).filterMap
          (Option.map (drawSlot inst.projectionMatrix (frameViewMatrix inst))) ∧
    (onDrawFrame advanceTime inst).length = ((advanceTime slots).filter eligible).length ∧
    (∀ (P V : Mat) (o : Option OpenGLSlot),
      drawSlots P V [o] = if eligible o then (o.map (drawSlot P V)).toList else []) ∧
    (∀ (P V : Mat) (o : Option OpenGLSlot), drawSlots P V [o] ≠ [] ↔ eligible o = true) ∧
    (∀ (P V : Mat) (slot : OpenGLSlot),
      slot._visible = false ∨ slot.indices = [] ∨ slot.textureID = 0 →
        drawSlots P V [some slot] = []) := by
  have hrun : onDrawFrame advanceTime inst
      = ((advanceTime slots).filter eligible).filterMap
          (Option.map (drawSlot inst.projectionMatrix (frameViewMatrix inst))) := by
    unfold onDrawFrame
    rw [h]
    exact drawSlots_eq_filter _ _ _
  have hone : ∀ (P V : Mat) (o : Option OpenGLSlot),
      drawSlots P V [o] = if eligible o then (o.map (drawSlot P V)).toList else [] := by
    intro P V o
    rw [drawSlots_cons]
    simp [drawSlots]
  refine ⟨hrun, ?_, hone, ?_, ?_⟩
  · rw [hrun]
    generalize advanceTime slots = l
    induction l with
    | nil => simp
    | cons o l ih =>
      cases o with
      | none => simpa [List.filter_cons, eligible] using ih
      | some slot =>
        cases he : eligible (some slot)
        · simpa [List.filter_cons, he] using ih
        · simpa [List.filter_cons, he] using ih
  · intro P V o
    rw [hone]
    cases o with
    | none => simp [eligible]
    | some slot => cases he : eligible (some slot) <;> simp
  · intro P V slot hs
    rw [hone]
    have he : eligible (some slot) = false := by
      rcases hs with hs | hs | hs <;> simp [eligible, hs]
    simp [he]

/-- An instance of C4: of the six entries of `frameInstance` the third and the sixth are
drawn, in that order. -/
theorem onDrawFrame_draws_witness :
    onDrawFrame id frameInstance
      = [drawSlot frameInstance.projectionMatrix (frameViewMatrix frameInstance) quadSlot,
         drawSlot frameInstance.projectionMatrix (frameViewMatrix frameInstance)
           { quadSlot with textureID := 8 }] := by
  rw [(onDrawFrame_draws id frameInstance _ rfl).1]
  rfl

/-! ## Absent texture data, unresolved tables -/

/-- Claim C11. A slot whose texture data is absent is left by `_updateMesh`, and likewise by
`_updateFrame`, with an empty vertex sequence, an empty index sequence and `textureID = 0`,
whatever its display data and its previous geometry cache; both methods return normally; and
the draw loop then issues no draw call for the slot. -/
theorem updateMesh_no_texture (bo : BinaryOffset) (s : OpenGLSlot) (P V : Mat)
    (h : s._textureData = none) :
    _updateMesh bo s = some { s with vertices := [], indices := [], textureID := 0 } ∧
    _updateFrame s = some { s with vertices := [], indices := [], textureID := 0 } ∧
    eligible (some { s with vertices := [], indices := [], textureID := 0 }) = false ∧
    drawSlots P V [some { s with vertices := [], indices := [], textureID := 0 }] = [] := by
  refine ⟨?_, ?_, ?_, ?_⟩
  · unfold _updateMesh
    split
    · rfl
    · rename_i td htd
      rw [h] at htd
      exact absurd htd (by simp)
  · unfold _updateFrame
    split
    · rfl
    · rename_i td htd
      rw [h] at htd
      exact absurd htd (by simp)
  · simp [eligible]
  · rw [drawSlots_cons]
    simp [eligible, drawSlots]

/-- An instance of C11: the stale cache `[9, 9, 9]`, `[4, 4]`, `3` of a slot that lost its
texture data is cleared. -/
theorem updateMesh_no_texture_witness :
    _updateMesh binaryOffset staleSlot
      = some { staleSlot with vertices := [], indices := [], textureID := 0 } ∧
    _updateFrame staleSlot
      = some { staleSlot with vertices := [], indices := [], textureID := 0 } ∧
    eligible (some { staleSlot with vertices := [], indices := [], textureID := 0 }) = false ∧
    drawSlots freshMatrix freshMatrix
      [some { staleSlot with vertices := [], indices := [], textureID := 0 }] = [] :=
  updateMesh_no_texture binaryOffset staleSlot freshMatrix freshMatrix rfl

/-- Claim C12. A slot with texture data whose display data is of `Mesh` type but whose tables
(the `DragonBonesData` behind the vertices data) are unresolved is left unchanged by
`_updateMesh`: the vertex sequence, the index sequence and `textureID` keep their values. -/
theorem updateMesh_unresolved_tables (bo : BinaryOffset) (s : OpenGLSlot)
    (textureData : OpenGLTextureData) (displayData : DisplayData)
    (hT : s._textureData = some textureData) (hD : s._displayData = some displayData)
    (hM : displayData.type = DisplayType.Mesh) (hN : displayData.vertices.data = none) :
    _updateMesh bo s = some s ∧
    ∀ s', _updateMesh bo s = some s' →
      s'.vertices = s.vertices ∧ s'.indices = s.indices ∧ s'.textureID = s.textureID := by
  have hrun : _updateMesh bo s = some s := by
    unfold _updateMesh
    rw [hT, hD]
    simp only [hM, hN, ne_eq, not_true_eq_false, if_false]
  refine ⟨hrun, ?_⟩
  intro s' hs'
  rw [hrun] at hs'
  cases hs'
  exact ⟨rfl, rfl, rfl⟩

/-- An instance of C12: a drawable cache survives the rebuild of a mesh without tables. -/
theorem updateMesh_unresolved_tables_witness :
    _updateMesh binaryOffset danglingMeshSlot = some danglingMeshSlot :=
  (updateMesh_unresolved_tables binaryOffset danglingMeshSlot region100x50
    { type := DisplayType.Mesh, vertices := { offset := 0, data := none } }
    rfl rfl rfl rfl).1

/-! ## The order of the UV extremes -/

/-- Claim C13, amended to what the code does. For a region with `0 ≤ width`, `0 ≤ height` of
an atlas with `atlasWidth > 0`, `atlasHeight > 0` (in particular for such a region that
satisfies `0 ≤ x`, `0 ≤ y`, `x + width ≤ atlasWidth`, `y + height ≤ atlasHeight`, which the
order does not need), `_updateFrame` builds 16 floats (4 vertices) in which the UV
`(u_min, v_min)` stored at the top-left vertex and the UV `(u_max, v_max)` stored at the
bottom-right vertex satisfy `u_min ≤ u_max` and `v_min ≤ v_max`, and every entry of the index
sequence is a vertex index below 4. The atlas dimensions are the divisors of the four
quotients: for a divisor `0` the code stores a NaN, for which no order holds. -/
theorem updateFrame_uv_ordered (s : OpenGLSlot) (textureData : OpenGLTextureData)
    (hT : s._textureData = some textureData)
    (hW : 0 < textureData.parent.width) (hH : 0 < textureData.parent.height)
    (hw : 0 ≤ textureData.region.width) (hh : 0 ≤ textureData.region.height) :
    ∃ s' u_min v_min u_max v_max,
      _updateFrame s = some s' ∧ s'.vertices.length = 4 * 4 ∧
      s'.vertices[2]? = some u_min ∧ s'.vertices[3]? = some v_min ∧
      s'.vertices[14]? = some u_max ∧ s'.vertices[15]? = some v_max ∧
      u_min ≤ u_max ∧ v_min ≤ v_max ∧
      ∀ i, i ∈ s'.indices → 0 ≤ i ∧ i < 4 := by
  refine ⟨_, _, _, _, _, updateFrame_quad s textureData hT, rfl, rfl, rfl, rfl, rfl, ?_, ?_, ?_⟩
  · exact (div_le_div_iff_of_pos_right hW).mpr (by linarith)
  · exact (div_le_div_iff_of_pos_right hH).mpr (by linarith)
  · intro i hi
    simp only [List.mem_cons, List.mem_singleton, List.not_mem_nil, or_false] at hi
    rcases hi with h | h | h | h | h | h <;> subst h <;> decide

/-- An instance of the amended C13: the region `{x:0, y:0, w:100, h:50}` of a 200 x 200
atlas. -/
theorem updateFrame_uv_ordered_witness :
    ∃ s' u_min v_min u_max v_max,
      _updateFrame flatSlot = some s' ∧ s'.vertices.length = 4 * 4 ∧
      s'.vertices[2]? = some u_min ∧ s'.vertices[3]? = some v_min ∧
      s'.vertices[14]? = some u_max ∧ s'.vertices[15]? = some v_max ∧
      u_min ≤ u_max ∧ v_min ≤ v_max ∧
      ∀ i, i ∈ s'.indices → 0 ≤ i ∧ i < 4 :=
  updateFrame_uv_ordered flatSlot region100x50 rfl
    (by norm_num [region100x50, atlas200]) (by norm_num [region100x50, atlas200])
    (by norm_num [region100x50]) (by norm_num [region100x50])

/-- Claim C13 as stated fails. The region `{x:10, y:20, w:-5, h:-10}` of a 200 x 200 atlas
satisfies `0 ≤ x`, `0 ≤ y`, `x + width ≤ atlasWidth`, `y + height ≤ atlasHeight`, and
`_updateFrame` stores `(u, v) = (1/20, 1/10)` at the top-left vertex and `(1/40, 1/20)` at the
bottom-right vertex: `u_min > u_max` and `v_min > v_max`. -/
theorem updateFrame_uv_inverted_counterexample :
    0 ≤ invertedRegion.region.x ∧ 0 ≤ invertedRegion.region.y ∧
    invertedRegion.region.x + invertedRegion.region.width ≤ invertedRegion.parent.width ∧
    invertedRegion.region.y + invertedRegion.region.height ≤ invertedRegion.parent.height ∧
    _updateFrame invertedSlot = some { invertedSlot with
      vertices := [5 / 2, 5, 1 / 20, 1 / 10, -5 / 2, 5, 1 / 40, 1 / 10,
                   5 / 2, -5, 1 / 20, 1 / 20, -5 / 2, -5, 1 / 40, 1 / 20],
      indices := [0, 1, 2, 1, 3, 2],
      textureID := 7 } ∧
    ¬ ((1 / 20 : ℚ) ≤ 1 / 40) ∧ ¬ ((1 / 10 : ℚ) ≤ 1 / 20) := by
  refine ⟨by norm_num [invertedRegion], by norm_num [invertedRegion],
    by norm_num [invertedRegion, atlas200], by norm_num [invertedRegion, atlas200], ?_,
    by norm_num, by norm_num⟩
  rw [updateFrame_quad invertedSlot invertedRegion rfl]
  simp only [invertedRegion, atlas200]
  norm_num


/-! ## Idempotence of the rebuild -/

/-- Two runs of a counted loop that stay related turn by turn fail together or end related. -/
theorem foldlM_range_related {β : Type} (step : β → Nat → Option β)
    (R : Nat → β → β → Prop) (n : Nat) (a b : β) (h0 : R 0 a b)
    (hstep : ∀ m x y, m < n → R m x y →
      (step x m = none ∧ step y m = none) ∨
      ∃ x' y', step x m = some x' ∧ step y m = some y' ∧ R (m + 1) x' y') :
    ((List.range n).foldlM step a = none ∧ (List.range n).foldlM step b = none) ∨
    ∃ x y, (List.range n).foldlM step a = some x ∧ (List.range n).foldlM step b = some y ∧
      R n x y := by
  induction n with
  | zero => exact Or.inr ⟨a, b, by simp, by simp, h0⟩
  | succ k ih =>
    rcases ih (fun m x y hm hR => hstep m x y (by omega) hR) with
      ⟨ha, hb⟩ | ⟨x, y, ha, hb, hR⟩
    · left
      rw [List.range_succ, List.foldlM_append, List.foldlM_append, ha, hb]
      exact ⟨rfl, rfl⟩
    · rcases hstep k x y (by omega) hR with ⟨hx, hy⟩ | ⟨x', y', hx, hy, hR'⟩
      · left
        rw [List.range_succ, List.foldlM_append, List.foldlM_append, ha, hb]
        simp [hx, hy]
      · right
        refine ⟨x', y', ?_, ?_, hR'⟩
        · rw [List.range_succ, List.foldlM_append, ha]
          simp [hx]
        · rw [List.range_succ, List.foldlM_append, hb]
          simp [hy]

/-- Two vectors of length `n` that agree below `n` are equal. -/
theorem list_eq_of_getElem?_eq {α : Type} (x y : List α) (n : Nat) (hx : x.length = n)
    (hy : y.length = n) (h : ∀ i, i < n → x[i]? = y[i]?) : x = y := by
  apply List.ext_getElem?
  intro i
  by_cases hi : i < n
  · exact h i hi
  · rw [List.getElem?_eq_none (by omega), List.getElem?_eq_none (by omega)]

theorem vecResize_self {α : Type} (v : List α) (n : Nat) (z : α) (h : v.length = n) :
    vecResize v n z = v := by
  subst h
  simp [vecResize]

/-- The index loop overwrites every cell: its outcome depends on the previous `indices` through
their number only, and it keeps that number. -/
theorem copyMeshIndices_length_only (intArray : List Int) (indexOffset : Int)
    (v w : List Int) (h : w.length = v.length) :
    copyMeshIndices intArray indexOffset w = copyMeshIndices intArray indexOffset v ∧
    ∀ r, copyMeshIndices intArray indexOffset v = some r → r.length = v.length := by
  unfold copyMeshIndices
  rw [h]
  have key := foldlM_range_related
    (fun (acc : List Int) (i : Nat) => do
      let value ← readAt intArray (indexOffset + (i : Int))
      writeAt acc i (toIndex value))
    (fun m x y => x.length = v.length ∧ y.length = v.length ∧ ∀ i, i < m → x[i]? = y[i]?)
    v.length w v ⟨h, rfl, fun i hi => absurd hi (Nat.not_lt_zero i)⟩
    (by
      intro m x y hm ⟨hxl, hyl, hxy⟩
      cases hr : readAt intArray (indexOffset + (m : Int)) with
      | none => left; simp [hr]
      | some value =>
        right
        refine ⟨x.set m (toIndex value), y.set m (toIndex value), ?_, ?_,
          by simpa using hxl, by simpa using hyl, ?_⟩
        · simp [hr, writeAt_of_lt x m (toIndex value) (by omega)]
        · simp [hr, writeAt_of_lt y m (toIndex value) (by omega)]
        · intro i hi
          by_cases him : i = m
          · subst him
            simp [List.getElem?_set, hxl, hyl, hm]
          · rw [List.getElem?_set_ne (fun h => him h.symm),
              List.getElem?_set_ne (fun h => him h.symm)]
            exact hxy i (by omega))
  rcases key with ⟨hw, hv⟩ | ⟨x, y, hw, hv, hxl, hyl, hxy⟩
  · refine ⟨by rw [hw, hv], ?_⟩
    intro r hr
    rw [hv] at hr
    exact absurd hr (by simp)
  · have hxy' : x = y := list_eq_of_getElem?_eq x y v.length hxl hyl hxy
    refine ⟨by rw [hw, hv, hxy'], ?_⟩
    intro r hr
    rw [hv] at hr
    cases hr
    exact hyl


/-- The four writes of one turn of the vertex loop succeed together or not at all. -/
theorem writeAt_four {α : Type} (acc : List α) (m : Nat) (a b c d : α) :
    ((writeAt acc (m * 4 + 0) a).bind fun v1 =>
      (writeAt v1 (m * 4 + 1) b).bind fun v2 =>
        (writeAt v2 (m * 4 + 2) c).bind fun v3 => writeAt v3 (m * 4 + 3) d)
      = if m * 4 + 3 < acc.length then
          some ((((acc.set (m * 4 + 0) a).set (m * 4 + 1) b).set (m * 4 + 2) c).set
            (m * 4 + 3) d)
        else none := by
  by_cases h : m * 4 + 3 < acc.length
  · have h0 : m * 4 < acc.length := by omega
    have h1 : m * 4 + 1 < acc.length := by omega
    have h2 : m * 4 + 2 < acc.length := by omega
    simp [writeAt, h, h0, h1, h2]
  · rw [if_neg h]
    simp only [writeAt, Nat.add_zero]
    split_ifs <;> simp_all

/-- One turn of the vertex loop on two vectors of the same length: both fail, or both write
the same four floats. -/
theorem meshVertexStep_related (floatArray deformVertices : List ℚ) (vertexOffset uvOffset : Int)
    (hasDeform : Bool) (x y : List ℚ) (m : Nat) (h : x.length = y.length) :
    (meshVertexStep floatArray deformVertices vertexOffset uvOffset hasDeform x m = none ∧
      meshVertexStep floatArray deformVertices vertexOffset uvOffset hasDeform y m = none) ∨
    ∃ a b c d,
      m * 4 + 3 < x.length ∧
      meshVertexStep floatArray deformVertices vertexOffset uvOffset hasDeform x m
        = some ((((x.set (m * 4 + 0) a).set (m * 4 + 1) b).set (m * 4 + 2) c).set
            (m * 4 + 3) d) ∧
      meshVertexStep floatArray deformVertices vertexOffset uvOffset hasDeform y m
        = some ((((y.set (m * 4 + 0) a).set (m * 4 + 1) b).set (m * 4 + 2) c).set
            (m * 4 + 3) d) := by
  have hstep : ∀ acc : List ℚ,
      meshVertexStep floatArray deformVertices vertexOffset uvOffset hasDeform acc m
        = (if hasDeform then readAt deformVertices ((m : Int) * 2)
            else readAt floatArray (vertexOffset + (m : Int) * 2)).bind fun a =>
          (if hasDeform then readAt deformVertices ((m : Int) * 2 + 1)
            else readAt floatArray (vertexOffset + (m : Int) * 2 + 1)).bind fun b =>
          (readAt floatArray (uvOffset + (m : Int) * 2)).bind fun c =>
          (readAt floatArray (uvOffset + (m : Int) * 2 + 1)).bind fun d =>
            if m * 4 + 3 < acc.length then
              some ((((acc.set (m * 4 + 0) a).set (m * 4 + 1) b).set (m * 4 + 2) c).set
                (m * 4 + 3) d)
            else none := by
    intro acc
    unfold meshVertexStep
    simp only [Option.bind_eq_bind, ← writeAt_four]
  rw [hstep x, hstep y]
  cases (if hasDeform then readAt deformVertices ((m : Int) * 2)
      else readAt floatArray (vertexOffset + (m : Int) * 2)) with
  | none => left; simp
  | some a =>
    cases (if hasDeform then readAt deformVertices ((m : Int) * 2 + 1)
        else readAt floatArray (vertexOffset + (m : Int) * 2 + 1)) with
    | none => left; simp
    | some b =>
      cases readAt floatArray (uvOffset + (m : Int) * 2) with
      | none => left; simp
      | some c =>
        cases readAt floatArray (uvOffset + (m : Int) * 2 + 1) with
        | none => left; simp
        | some d =>
          by_cases hb : m * 4 + 3 < x.length
          · right
            exact ⟨a, b, c, d, hb, by simp [hb], by simp [← h, hb]⟩
          · left
            exact ⟨by simp [hb], by simp [← h, hb]⟩

/-- The vertex loop overwrites every cell of a vector of at most `4 * vertexCount` floats: its
outcome depends on the previous `vertices` through their number only, and it keeps that
number. -/
theorem fillMeshVertices_length_only (floatArray deformVertices : List ℚ)
    (vertexOffset vertexCount : Int) (v w : List ℚ) (h : w.length = v.length)
    (hcover : v.length ≤ vertexCount.toNat * 4) :
    fillMeshVertices floatArray deformVertices vertexOffset vertexCount w
      = fillMeshVertices floatArray deformVertices vertexOffset vertexCount v ∧
    ∀ r, fillMeshVertices floatArray deformVertices vertexOffset vertexCount v = some r →
      r.length = v.length := by
  unfold fillMeshVertices
  simp only []
  have key := foldlM_range_related
    (meshVertexStep floatArray deformVertices vertexOffset (vertexOffset + vertexCount * 2)
      (!deformVertices.isEmpty))
    (fun m x y => x.length = v.length ∧ y.length = v.length ∧
      ∀ i, i < m * 4 → x[i]? = y[i]?)
    vertexCount.toNat w v ⟨h, rfl, fun i hi => absurd hi (by omega)⟩
    (by
      intro m x y hm ⟨hxl, hyl, hxy⟩
      rcases meshVertexStep_related floatArray deformVertices vertexOffset
        (vertexOffset + vertexCount * 2) (!deformVertices.isEmpty) x y m (by rw [hxl, hyl])
        with hnone | ⟨a, b, c, d, hb, hx, hy⟩
      · exact Or.inl hnone
      · right
        refine ⟨_, _, hx, hy, by simpa using hxl, by simpa using hyl, ?_⟩
        intro i hi
        by_cases hlt : i < m * 4
        · rw [List.getElem?_set_ne (by omega), List.getElem?_set_ne (by omega),
            List.getElem?_set_ne (by omega), List.getElem?_set_ne (by omega),
            List.getElem?_set_ne (by omega), List.getElem?_set_ne (by omega),
            List.getElem?_set_ne (by omega), List.getElem?_set_ne (by omega)]
          exact hxy i hlt
        · have hcases : i = m * 4 + 0 ∨ i = m * 4 + 1 ∨ i = m * 4 + 2 ∨ i = m * 4 + 3 := by
            omega
          rcases hcases with hi | hi | hi | hi <;> subst hi <;>
            simp [List.getElem?_set, hxl, hyl])
  rcases key with ⟨hw, hv⟩ | ⟨x, y, hw, hv, hxl, hyl, hxy⟩
  · refine ⟨by rw [hw, hv], ?_⟩
    intro r hr
    rw [hv] at hr
    exact absurd hr (by simp)
  · have hxy' : x = y :=
      list_eq_of_getElem?_eq x y v.length hxl hyl (fun i hi => hxy i (by omega))
    refine ⟨by rw [hw, hv, hxy'], ?_⟩
    intro r hr
    rw [hv] at hr
    cases hr
    exact hyl


/-- On a slot that reaches the mesh branch, `_updateMesh` is `meshGeometry` followed by the
stores into `vertices`, `indices` and `textureID`. -/
theorem updateMesh_eq_meshGeometry (bo : BinaryOffset) (s : OpenGLSlot)
    (textureData : OpenGLTextureData) (displayData : DisplayData) (data : DragonBonesData)
    (hT : s._textureData = some textureData) (hD : s._displayData = some displayData)
    (hM : displayData.type = DisplayType.Mesh) (hN : displayData.vertices.data = some data) :
    _updateMesh bo s
      = (meshGeometry bo displayData.vertices data s._deformVertices s.vertices s.indices).map
          (fun p => { s with vertices := p.1, indices := p.2,
                             textureID := textureData.parent.textureID }) := by
  unfold _updateMesh meshGeometry
  rw [hT, hD]
  simp only [hM, hN, ne_eq, not_true_eq_false, if_false, Option.bind_eq_bind]
  cases data.intArray[displayData.vertices.offset + bo.MeshVertexCount]? with
  | none => rfl
  | some vertexCount =>
    cases data.intArray[displayData.vertices.offset + bo.MeshTriangleCount]? with
    | none => rfl
    | some triangleCount =>
      cases data.intArray[displayData.vertices.offset + bo.MeshFloatOffset]? with
      | none => rfl
      | some vertexOffset =>
        cases data.intArray[displayData.vertices.offset + bo.MeshVertexIndices]? with
        | none => rfl
        | some indexOffset =>
          simp only [Option.some_bind]
          cases resizeInt s.indices (triangleCount * 3) 0 with
          | none => rfl
          | some i0 =>
            simp only [Option.some_bind]
            cases copyMeshIndices data.intArray indexOffset i0 with
            | none => rfl
            | some i1 =>
              simp only [Option.some_bind]
              cases resizeInt s.vertices (vertexCount * 4) 0 with
              | none => rfl
              | some v0 =>
                simp only [Option.some_bind]
                cases fillMeshVertices data.floatArray s._deformVertices vertexOffset
                    vertexCount v0 with
                | none => rfl
                | some v1 => rfl

theorem resizeInt_eq_some {α : Type} (v r : List α) (n : Int) (z : α)
    (h : resizeInt v n z = some r) : 0 ≤ n ∧ r = vecResize v n.toNat z := by
  unfold resizeInt at h
  split at h
  · exact absurd h (by simp)
  · rename_i hn
    exact ⟨by omega, (Option.some.inj h).symm⟩

theorem resizeInt_of_length {α : Type} (v : List α) (n : Int) (z : α) (h0 : 0 ≤ n)
    (h : v.length = n.toNat) : resizeInt v n z = some v := by
  unfold resizeInt
  rw [if_neg (by omega), vecResize_self v n.toNat z h]

/-- The vectors that the mesh branch builds are a fixed point of the mesh branch. -/
theorem meshGeometry_fixed (bo : BinaryOffset) (verticesData : VerticesData)
    (data : DragonBonesData) (deformVertices : List ℚ) (vertices0 vertices : List ℚ)
    (indices0 indices : List Int)
    (h : meshGeometry bo verticesData data deformVertices vertices0 indices0
      = some (vertices, indices)) :
    meshGeometry bo verticesData data deformVertices vertices indices
      = some (vertices, indices) := by
  unfold meshGeometry at h ⊢
  simp only [Option.bind_eq_bind] at h ⊢
  cases hvc : data.intArray[verticesData.offset + bo.MeshVertexCount]? with
  | none => rw [hvc] at h; exact absurd h (by simp)
  | some vertexCount =>
  cases htc : data.intArray[verticesData.offset + bo.MeshTriangleCount]? with
  | none => rw [hvc, htc] at h; exact absurd h (by simp)
  | some triangleCount =>
  cases hvo : data.intArray[verticesData.offset + bo.MeshFloatOffset]? with
  | none => rw [hvc, htc, hvo] at h; exact absurd h (by simp)
  | some vertexOffset =>
  cases hio : data.intArray[verticesData.offset + bo.MeshVertexIndices]? with
  | none => rw [hvc, htc, hvo, hio] at h; exact absurd h (by simp)
  | some indexOffset =>
  rw [hvc, htc, hvo, hio] at h
  simp only [Option.some_bind] at h ⊢
  cases hri : resizeInt indices0 (triangleCount * 3) 0 with
  | none => rw [hri] at h; exact absurd h (by simp)
  | some i0 =>
  rw [hri] at h
  simp only [Option.some_bind] at h
  cases hci : copyMeshIndices data.intArray indexOffset i0 with
  | none => rw [hci] at h; exact absurd h (by simp)
  | some i1 =>
  rw [hci] at h
  simp only [Option.some_bind] at h
  cases hrv : resizeInt vertices0 (vertexCount * 4) 0 with
  | none => rw [hrv] at h; exact absurd h (by simp)
  | some v0 =>
  rw [hrv] at h
  simp only [Option.some_bind] at h
  cases hfv : fillMeshVertices data.floatArray deformVertices vertexOffset vertexCount v0 with
  | none => rw [hfv] at h; exact absurd h (by simp)
  | some v1 =>
  rw [hfv] at h
  simp only [Option.some_bind, Option.some.injEq, Prod.mk.injEq] at h
  obtain ⟨hv, hi⟩ := h
  subst hv hi
  obtain ⟨ht0, hi0⟩ := resizeInt_eq_some _ _ _ _ hri
  obtain ⟨hc0, hv0⟩ := resizeInt_eq_some _ _ _ _ hrv
  have hi0len : i0.length = (triangleCount * 3).toNat := by
    rw [hi0]; exact vecResize_length _ _ _
  have hv0len : v0.length = (vertexCount * 4).toNat := by
    rw [hv0]; exact vecResize_length _ _ _
  have hi1len : i1.length = i0.length :=
    (copyMeshIndices_length_only data.intArray indexOffset i0 i0 rfl).2 i1 hci
  have hcover : v0.length ≤ vertexCount.toNat * 4 := by omega
  have hv1len : v1.length = v0.length :=
    (fillMeshVertices_length_only data.floatArray deformVertices vertexOffset vertexCount
      v0 v0 rfl hcover).2 v1 hfv
  rw [resizeInt_of_length i1 _ 0 ht0 (by rw [hi1len, hi0len])]
  simp only [Option.some_bind]
  rw [(copyMeshIndices_length_only data.intArray indexOffset i0 i1 hi1len).1, hci]
  simp only [Option.some_bind]
  rw [resizeInt_of_length v1 _ 0 hc0 (by rw [hv1len, hv0len])]
  simp only [Option.some_bind]
  rw [(fillMeshVertices_length_only data.floatArray deformVertices vertexOffset vertexCount
    v0 v1 hv1len hcover).1, hfv]
  rfl

/-- Claim C14. The rebuild is idempotent: for every slot state, `_updateMesh` run on the slot
that `_updateMesh` has rebuilt (display data, texture data, tables and deform vertices being
the same) returns that slot again, so the vertex sequence, the index sequence and `textureID`
after two runs are those after one run; and when the first run does not return, neither does
the pair. -/
theorem updateMesh_idempotent (bo : BinaryOffset) (s : OpenGLSlot) :
    (_updateMesh bo s).bind (_updateMesh bo) = _updateMesh bo s ∧
    ∀ s1, _updateMesh bo s = some s1 →
      _updateMesh bo s1 = some s1 ∧
      ∀ s2, _updateMesh bo s1 = some s2 →
        s2.vertices = s1.vertices ∧ s2.indices = s1.indices ∧ s2.textureID = s1.textureID := by
  have key : ∀ s1, _updateMesh bo s = some s1 → _updateMesh bo s1 = some s1 := by
    intro s1 h1
    cases hT : s._textureData with
    | none =>
      have hclear : ∀ t : OpenGLSlot, t._textureData = none →
          _updateMesh bo t = some { t with vertices := [], indices := [], textureID := 0 } := by
        intro t ht
        unfold _updateMesh
        rw [ht]
      rw [hclear s hT] at h1
      have hs1 := (Option.some.inj h1).symm
      have hT1 : s1._textureData = none := by rw [hs1]; exact hT
      rw [hclear s1 hT1, hs1]
    | some textureData =>
      by_cases hD : ∀ d, s._displayData = some d → d.type ≠ DisplayType.Mesh
      · rw [updateMesh_eq_updateFrame bo s textureData hT hD,
          updateFrame_quad s textureData hT] at h1
        have hs1 := (Option.some.inj h1).symm
        have hT1 : s1._textureData = some textureData := by rw [hs1]; exact hT
        have hD1 : ∀ d, s1._displayData = some d → d.type ≠ DisplayType.Mesh := by
          rw [hs1]; exact hD
        rw [updateMesh_eq_updateFrame bo s1 textureData hT1 hD1,
          updateFrame_quad s1 textureData hT1]
        rw [hs1]
      · push_neg at hD
        obtain ⟨displayData, hD, hM⟩ := hD
        cases hN : displayData.vertices.data with
        | none =>
          have hsame : _updateMesh bo s = some s := by
            unfold _updateMesh
            rw [hT, hD]
            simp only [hM, hN, ne_eq, not_true_eq_false, if_false]
          rw [hsame] at h1
          rw [← Option.some.inj h1]
          exact hsame
        | some data =>
          rw [updateMesh_eq_meshGeometry bo s textureData displayData data hT hD hM hN] at h1
          cases hg : meshGeometry bo displayData.vertices data s._deformVertices s.vertices
              s.indices with
          | none => rw [hg] at h1; exact absurd h1 (by simp)
          | some p =>
            obtain ⟨vertices, indices⟩ := p
            rw [hg, Option.map_some'] at h1
            have hs1 := (Option.some.inj h1).symm
            have hT1 : s1._textureData = some textureData := by rw [hs1]; exact hT
            have hD1 : s1._displayData = some displayData := by rw [hs1]; exact hD
            have hdef : s1._deformVertices = s._deformVertices := by rw [hs1]
            have hv : s1.vertices = vertices := by rw [hs1]
            have hi : s1.indices = indices := by rw [hs1]
            rw [updateMesh_eq_meshGeometry bo s1 textureData displayData data hT1 hD1 hM hN,
              hdef, hv, hi,
              meshGeometry_fixed bo displayData.vertices data s._deformVertices s.vertices
                vertices s.indices indices hg, Option.map_some']
            rw [hs1]
  refine ⟨?_, fun s1 h1 => ⟨key s1 h1, ?_⟩⟩
  · cases h : _updateMesh bo s with
    | none => rfl
    | some s1 => exact key s1 h
  · intro s2 h2
    rw [key s1 h1] at h2
    rw [← Option.some.inj h2]
    exact ⟨rfl, rfl, rfl⟩

/-- Two runs evaluated: a mesh slot and a flat slot, each rebuilt from its own rebuilt
state. -/
theorem meshSlot_rebuild_twice :
    (_updateMesh binaryOffset (meshSlot [0, 1, 2] [1, 2, 3, 4, 5, 6])).bind
        (_updateMesh binaryOffset)
      = some { meshSlot [0, 1, 2] [1, 2, 3, 4, 5, 6] with
          vertices := [1, 2, 0, 0, 3, 4, 1, 0, 5, 6, 0, 1],
          indices := [0, 1, 2],
          textureID := 7 } := by
  rw [meshSlot_deform_rebuild_values.1]
  rfl


end DragonBones
